import Mathlib

/-!
Deferred-work exercises: shallow embedding and verification.

The development follows the C sources `Source/ex1.c`, `Source/ex3.c`, `Source/ex4.c`,
`Source/ex5.c`, `Source/ex6.c`, `Source/ex7.c` and `Source/ex8.c`.

* `Ex3`: the hand-written work queue (`submit_work`, `worker_thread_fn`, `ex3_exit`).
* `Ex6`: the tracked tasklet registry (`create_and_schedule_tasklet`,
  `generic_tasklet_handler`, `tasklet_stats_show`, `ex6_exit`).
* `Ex5`: the self-rescheduling delayed work (`ex5_work_handler`, `ex5_init`).
* `Ex1`: the enable/disable call sequence of `ex1_init`.
* `Ex7`, `Ex4`, `Ex8`: work items scheduled on and cancelled from a kernel work queue.

Pointers are natural numbers (addresses), kernel lists are Lean lists, and the
`int`/`atomic_t` counters are integers.  The integer increments and decrements of the
definitions are those of the 32-bit `atomic_inc` and `atomic_dec` as long as the counter
does not wrap (`Ex6.atomic_inc_eq`, `Ex6.atomic_dec_eq`); the theorems on a single call
from an arbitrary state carry that bound, and the sources themselves perform three
increments from zero.
-/

/-! ## Ex3: simplified work queue (`Source/ex3.c`) -/

namespace Ex3

/-- Value of the kernel errno constant `ENOMEM` (kernel header, not part of the sources). -/
def ENOMEM : Int := 12

/-- A queued work item, `simple_work_t`: `func` is the function pointer and `data` is the
`int` stored in the buffer that the `data` pointer refers to.  The `list` linkage is the
position of the item in `State.work_list`. -/
structure simple_work_t where
  func : Nat
  data : Int
deriving DecidableEq, Repr

/-- Observable actions of the work queue code. -/
inductive Event where
  /-- the call `work_item->func(work_item->data)` of line 65 -/
  | call (func : Nat) (data : Int)
  /-- the call `kfree(work_item->data)` of line 166 -/
  | kfree_data (data : Int)
  /-- the calls `kfree(work_item)` of lines 68 and 167 -/
  | kfree_work (w : simple_work_t)
deriving DecidableEq, Repr

/-- Control points of `worker_thread_fn`. -/
inductive Pc where
  /-- line 41: the test of `while (!kthread_should_stop())` -/
  | loop_head
  /-- line 43: inside `wait_event_interruptible` -/
  | waiting
  /-- line 46: `if (kthread_should_stop())` -/
  | stop_check
  /-- line 52: top of the inner `while (1)` -/
  | draining
  /-- line 75: after the outer loop, the thread returns -/
  | exited
deriving DecidableEq, Repr

/-- The globals of `ex3.c` together with the control point of the worker thread.
`work_list` is the kernel list headed by `work_list`; `should_stop` is what
`kthread_should_stop()` returns; `worker_thread` says whether the pointer of that
name is non-NULL; `trace` records the calls made so far. -/
structure State where
  work_list : List simple_work_t
  should_stop : Bool
  worker_thread : Bool
  pc : Pc
  trace : List Event
deriving DecidableEq, Repr

/-- Function `submit_work(func, id)`, lines 80-117.  `alloc_work` and `alloc_data` say
whether the first and the second `kmalloc` succeed.  Returns the C return value and the
new state. -/
def submit_work (func : Nat) (id : Int) (alloc_work alloc_data : Bool) (s : State) :
    Int × State :=
  if !alloc_work then
    (-ENOMEM, s)
  else if !alloc_data then
    (-ENOMEM, s)
  else
    (0, { s with work_list := s.work_list ++ [{ func := func, data := id }] })

/-- A run of successful `submit_work` calls, one per `(func, id)` pair, in list order.
Returns the list of return values and the final state. -/
def submit_all : List (Nat × Int) → State → List Int × State
  | [], s => ([], s)
  | (f, id) :: rest, s =>
    let r := submit_work f id true true s
    let rs := submit_all rest r.2
    (r.1 :: rs.1, rs.2)

/-- One pass through the body of the inner `while (1)`, lines 53-69: `none` is the
`break` taken when the list is empty, otherwise the head is unlinked, its function is
called and the item is freed. -/
def drain_iter (s : State) : Option State :=
  match s.work_list with
  | [] => none
  | w :: rest =>
    some { s with work_list := rest,
                  trace := s.trace ++ [Event.call w.func w.data, Event.kfree_work w] }

/-- The inner `while (1)` loop of `worker_thread_fn`, lines 52-70, with a bound on the
number of passes: `none` means the bound was reached before the `break`. -/
def worker_inner_loop : Nat → State → Option State
  | 0, _ => none
  | fuel + 1, s =>
    match drain_iter s with
    | none => some s
    | some s1 => worker_inner_loop fuel s1

/-- One transition of the worker thread `worker_thread_fn`, lines 41-76.  A thread that
waits with a false condition, or that has exited, does not move. -/
def worker_thread_fn (s : State) : State :=
  match s.pc with
  | Pc.loop_head =>
    if s.should_stop then { s with pc := Pc.exited } else { s with pc := Pc.waiting }
  | Pc.waiting =>
    if !s.work_list.isEmpty || s.should_stop then { s with pc := Pc.stop_check } else s
  | Pc.stop_check =>
    if s.should_stop then { s with pc := Pc.exited } else { s with pc := Pc.draining }
  | Pc.draining =>
    match drain_iter s with
    | none => { s with pc := Pc.loop_head }
    | some s1 => s1
  | Pc.exited => s

/-- The worker thread is scheduled until it has returned, at most `fuel` transitions:
`none` means it has not returned within the bound. -/
def worker_join : Nat → State → Option State
  | 0, s => if s.pc = Pc.exited then some s else none
  | fuel + 1, s => if s.pc = Pc.exited then some s else worker_join fuel (worker_thread_fn s)

/-- Modelled from the spec: `kthread_stop` is kernel code.  Following the description of
`destroy()` in section 4.2 it raises the stop signal and joins the worker. -/
def kthread_stop (fuel : Nat) (s : State) : Option State :=
  worker_join fuel { s with should_stop := true }

/-- The `list_for_each_safe` loop of `ex3_exit`, lines 162-168, over the nodes `pos`
visited: each is unlinked with `list_del` and its data and the item are freed. -/
def cleanup_loop : List simple_work_t → State → State
  | [], s => s
  | w :: rest, s =>
    cleanup_loop rest
      { s with work_list := s.work_list.erase w,
               trace := s.trace ++ [Event.kfree_data w.data, Event.kfree_work w] }

/-- Function `ex3_exit`, lines 143-173: stop the worker when there is one, then free what
is left on the list. -/
def ex3_exit (fuel : Nat) (s : State) : Option State :=
  let stopped : Option State :=
    if s.worker_thread then
      (kthread_stop fuel s).map fun s1 => { s1 with worker_thread := false }
    else some s
  stopped.map fun s1 => cleanup_loop s1.work_list s1

/-- The callbacks invoked in a trace, in order. -/
def calls : List Event → List simple_work_t
  | [] => []
  | Event.call f d :: rest => { func := f, data := d } :: calls rest
  | _ :: rest => calls rest

/-- The events of one pass of the worker on an item. -/
def run_events (w : simple_work_t) : List Event :=
  [Event.call w.func w.data, Event.kfree_work w]

/-- The events of one pass of the cleanup loop on an item. -/
def drop_events (w : simple_work_t) : List Event :=
  [Event.kfree_data w.data, Event.kfree_work w]

/-- A queue state right after `ex3_init` has started the worker: empty list, no stop
signal, worker at the head of its loop. -/
def fresh : State :=
  { work_list := [], should_stop := false, worker_thread := true, pc := Pc.loop_head,
    trace := [] }

/-- A queue state in the middle of a drain pass: item 1 has been executed, items 2 and 3
are still queued, the worker is at the top of its inner loop, no stop signal yet. -/
def mid_drain : State :=
  { work_list := [{ func := 7, data := 2 }, { func := 7, data := 3 }],
    should_stop := false, worker_thread := true, pc := Pc.draining,
    trace := [Event.call 7 1, Event.kfree_work { func := 7, data := 1 }] }

/-- A queue state with the worker asleep in `wait_event_interruptible` (which is where
a stop signal finds it when it raced with the two submissions shown). -/
def stop_at_wait : State :=
  { work_list := [{ func := 7, data := 2 }, { func := 7, data := 3 }],
    should_stop := false, worker_thread := true, pc := Pc.waiting, trace := [] }

/-- What can happen next to the queue while the module is loaded: a successful call
`submit_work(func, id)`, or one transition of the worker thread. -/
inductive Action where
  | submit (func : Nat) (id : Int)
  | worker
deriving DecidableEq, Repr

/-- Effect of one action. -/
def act (s : State) : Action → State
  | Action.submit f id => (submit_work f id true true s).2
  | Action.worker => worker_thread_fn s

/-- Effect of a sequence of actions, that is of one interleaving of submissions with
the worker thread. -/
def run_actions (acts : List Action) (s : State) : State :=
  acts.foldl act s

/-- The items submitted by a sequence of actions, in submission order. -/
def submitted : List Action → List simple_work_t
  | [] => []
  | Action.submit f id :: rest => { func := f, data := id } :: submitted rest
  | Action.worker :: rest => submitted rest

/-- The work item made by `submit_work` for a `(func, id)` pair. -/
def item_of (p : Nat × Int) : simple_work_t :=
  { func := p.1, data := p.2 }

end Ex3

/-! ## Ex6: tracked tasklet registry (`Source/ex6.c`) -/

namespace Ex6

/-- The part of `struct tasklet_struct` the sources depend on: the `TASKLET_STATE_SCHED`
bit of `state`, the disable count `count`, and the `data` word handed to the handler
(the handler function is always `generic_tasklet_handler`). -/
structure tasklet_struct where
  sched : Bool
  count : Nat
  data : Nat
deriving DecidableEq, Repr

/-- An object of type `tasklet_entry_t`, lines 16-22.  The `list` linkage is the position
of the address of the object in `Registry.active_tasklets`. -/
structure tasklet_entry_t where
  tasklet : tasklet_struct
  data : Nat
  high_priority : Bool
  executed : Bool
deriving DecidableEq, Repr

/-- The globals of `ex6.c`.  `mem` is the object memory of the slab cache, indexed by
address; `active_tasklets` lists the addresses of the linked entries, head first;
`tasklet_cache` says whether the pointer of that name is non-NULL; the five counters
are the `atomic_t` statistics; `tasklet_vec` and `tasklet_hi_vec` are the two run
queues of the tasklet engine (normal and expedited). -/
structure Registry where
  mem : Nat → tasklet_entry_t
  active_tasklets : List Nat
  tasklet_cache : Bool
  created_count : Int
  scheduled_count : Int
  executed_count : Int
  high_prio_count : Int
  pending_count : Int
  tasklet_vec : List Nat
  tasklet_hi_vec : List Nat

/-- What `tasklet_stats_show` prints, lines 123-129. -/
structure Snapshot where
  created : Int
  scheduled : Int
  executed : Int
  high_priority : Int
  pending_by_scan : Int
deriving DecidableEq, Repr

/-- Observable actions of `ex6_exit`. -/
inductive Ev where
  | remove_proc_entry
  | spin_lock
  | spin_unlock
  | list_del (entry : Nat)
  | tasklet_kill (entry : Nat)
  | kmem_cache_free (entry : Nat)
  | kmem_cache_destroy
deriving DecidableEq, Repr

/-- Function `tasklet_init(t, generic_tasklet_handler, data)`: cleared state, enabled. -/
def tasklet_init (data : Nat) : tasklet_struct :=
  { sched := false, count := 0, data := data }

/-- Write the object at address `a`. -/
def store (s : Registry) (a : Nat) (e : tasklet_entry_t) : Registry :=
  { s with mem := fun b => if b = a then e else s.mem b }

/-- Modelled from the spec: `tasklet_schedule` is kernel code.  Section 4.1: `schedule`
marks the unit pending and hands it to the run queue, and is a no-op on a unit that is
already pending; section 4.4: a unit without priority goes to the normal run queue. -/
def tasklet_schedule (a : Nat) (s : Registry) : Registry :=
  if (s.mem a).tasklet.sched then s
  else
    let e := s.mem a
    { store s a { e with tasklet := { e.tasklet with sched := true } } with
      tasklet_vec := s.tasklet_vec ++ [a] }

/-- Modelled from the spec: `tasklet_hi_schedule` is kernel code.  As `tasklet_schedule`,
but the unit goes to the expedited run queue (section 4.4). -/
def tasklet_hi_schedule (a : Nat) (s : Registry) : Registry :=
  if (s.mem a).tasklet.sched then s
  else
    let e := s.mem a
    { store s a { e with tasklet := { e.tasklet with sched := true } } with
      tasklet_hi_vec := s.tasklet_hi_vec ++ [a] }

/-- Modelled from the spec: `tasklet_kill` is kernel code.  Section 4.1: `kill` removes
the unit from any run queue; afterwards it is not pending. -/
def tasklet_kill (a : Nat) (s : Registry) : Registry :=
  let e := s.mem a
  { store s a { e with tasklet := { e.tasklet with sched := false } } with
    tasklet_vec := s.tasklet_vec.filter fun b => b ≠ a
    tasklet_hi_vec := s.tasklet_hi_vec.filter fun b => b ≠ a }

/-- Function `generic_tasklet_handler(data)`, lines 39-55; `data` is the address of the
entry.  The counters are updated as integers, which is what `atomic_inc` and `atomic_dec`
do on a counter that does not wrap. -/
def generic_tasklet_handler (data : Nat) (s : Registry) : Registry :=
  let s1 := { s with executed_count := s.executed_count + 1 }
  let s2 := { s1 with pending_count := s1.pending_count - 1 }
  store s2 data { s2.mem data with executed := true }

/-- Function `create_and_schedule_tasklet(task_data, high_prio)`, lines 58-98.  `alloc`
is the result of `kmem_cache_alloc`: `none` for NULL, otherwise the address of the
object.  Returns the C return value (`none` for NULL) and the new state.  The counters
are incremented as integers, which is what `atomic_inc` does on a counter below
`INT_MAX`. -/
def create_and_schedule_tasklet (task_data : Nat) (high_prio : Bool) (alloc : Option Nat)
    (s : Registry) : Option Nat × Registry :=
  match alloc with
  | none => (none, s)
  | some entry =>
    let s1 := store s entry
      { tasklet := tasklet_init entry, data := task_data, high_priority := high_prio,
        executed := false }
    let s2 := { s1 with active_tasklets := s1.active_tasklets ++ [entry] }
    let s3 := { s2 with created_count := s2.created_count + 1 }
    let s4 := if high_prio then { s3 with high_prio_count := s3.high_prio_count + 1 } else s3
    let s5 := { s4 with scheduled_count := s4.scheduled_count + 1 }
    let s6 := { s5 with pending_count := s5.pending_count + 1 }
    let s7 := if high_prio then tasklet_hi_schedule entry s6 else tasklet_schedule entry s6
    (some entry, s7)

/-- The `list_for_each_entry` loop of `tasklet_stats_show`, lines 110-119, over the
entries still to visit, with the running value of `current_pending`. -/
def scan_pending (s : Registry) : List Nat → Int → Int
  | [], current_pending => current_pending
  | entry :: rest, current_pending =>
    if !(s.mem entry).executed && (s.mem entry).tasklet.sched then
      scan_pending s rest (current_pending + 1)
    else
      scan_pending s rest current_pending

/-- Function `tasklet_stats_show`, lines 102-132: the state afterwards and the values
printed. -/
def tasklet_stats_show (s : Registry) : Registry × Snapshot :=
  let current_pending := scan_pending s s.active_tasklets 0
  (s, { created := s.created_count, scheduled := s.scheduled_count,
        executed := s.executed_count, high_priority := s.high_prio_count,
        pending_by_scan := current_pending })

/-- The registry before `ex6_init` has run: zeroed counters, empty list, no cache. -/
def boot (mem : Nat → tasklet_entry_t) : Registry :=
  { mem := mem, active_tasklets := [], tasklet_cache := false, created_count := 0,
    scheduled_count := 0, executed_count := 0, high_prio_count := 0, pending_count := 0,
    tasklet_vec := [], tasklet_hi_vec := [] }

/-- Kernel errno constant `ENOMEM`. -/
def ENOMEM : Int := 12

/-- The content of an object that was never written. -/
def default_entry : tasklet_entry_t :=
  { tasklet := { sched := false, count := 0, data := 0 }, data := 0, high_priority := false,
    executed := false }

/-- Function `ex6_init`, lines 150-184.  `cache_ok` and `proc_ok` say whether
`kmem_cache_create` and `proc_create` succeed; `a1 a2 a3` are the results of the three
slab allocations. -/
def ex6_init (cache_ok proc_ok : Bool) (a1 a2 a3 : Option Nat) (s : Registry) :
    Int × Registry :=
  if !cache_ok then (-ENOMEM, { s with tasklet_cache := false })
  else
    let s0 := { s with tasklet_cache := true }
    if !proc_ok then (-ENOMEM, s0)
    else
      let s1 := (create_and_schedule_tasklet 100 false a1 s0).2
      let s2 := (create_and_schedule_tasklet 200 true a2 s1).2
      let s3 := (create_and_schedule_tasklet 300 false a3 s2).2
      (0, s3)

/-- Handler runs for the given entries, in list order. -/
def run_handlers : List Nat → Registry → Registry
  | [], s => s
  | a :: rest, s => run_handlers rest (generic_tasklet_handler a s)

/-- The events of one pass of the `list_for_each_safe` loop of `ex6_exit` on an entry,
lines 202-210. -/
def exit_events (entry : Nat) : List Ev :=
  [Ev.list_del entry, Ev.spin_unlock, Ev.tasklet_kill entry, Ev.kmem_cache_free entry,
   Ev.spin_lock]

/-- The `list_for_each_safe` loop of `ex6_exit`, lines 201-211, over the nodes `pos`
visited: the entry is unlinked, the lock is dropped, the tasklet is killed, the object
is freed and the lock is taken again. -/
def exit_loop : List Nat → Registry × List Ev → Registry × List Ev
  | [], st => st
  | entry :: rest, (s, tr) =>
    let s1 := { s with active_tasklets := s.active_tasklets.erase entry }
    let s2 := tasklet_kill entry s1
    exit_loop rest (s2, tr ++ exit_events entry)

/-- Function `ex6_exit`, lines 186-223: the state afterwards and the calls made, in
order. -/
def ex6_exit (s : Registry) : Registry × List Ev :=
  let st := exit_loop s.active_tasklets (s, [Ev.remove_proc_entry, Ev.spin_lock])
  let tr := st.2 ++ [Ev.spin_unlock]
  if st.1.tasklet_cache then (st.1, tr ++ [Ev.kmem_cache_destroy]) else (st.1, tr)

end Ex6

/-! ## Ex5: self-rescheduling delayed work (`Source/ex5.c`) -/

namespace Ex5

/-- The state of `ex5.c`: `count` is the `static int count` of the handler; `timer` is
the delay (in jiffies) with which `ex5_delayed_work` is armed, `none` when it is not
pending; `log` lists the execution numbers printed by the handler, oldest first. -/
structure State where
  count : Int
  timer : Option Nat
  log : List Int
deriving DecidableEq, Repr

/-- Modelled from the spec: `schedule_delayed_work` is kernel code.  Section 4.3:
`schedule_after` arms a timer, and there is at most one outstanding timer per delayed
task, so arming a pending task changes nothing and reports `false`. -/
def schedule_delayed_work (delay : Nat) (s : State) : Bool × State :=
  match s.timer with
  | some _ => (false, s)
  | none => (true, { s with timer := some delay })

/-- Function `ex5_work_handler`, lines 11-28, where `HZ` is the kernel tick rate. -/
def ex5_work_handler (HZ : Nat) (s : State) : State :=
  let s1 := { s with count := s.count + 1 }
  let s2 := { s1 with log := s1.log ++ [s1.count] }
  if s2.count < 5 then
    (schedule_delayed_work HZ s2).2
  else
    s2

/-- Function `ex5_init`, lines 33-42, run on the state the module is loaded with. -/
def ex5_init (HZ : Nat) : State :=
  (schedule_delayed_work (2 * HZ) { count := 0, timer := none, log := [] }).2

/-- Modelled from the spec: the expiry of the timer is kernel code.  Section 4.3: on
expiry the target is submitted and runs; the task is no longer pending when its handler
starts.  `none` when no timer is armed (nothing can fire). -/
def timer_fire (HZ : Nat) (s : State) : Option State :=
  match s.timer with
  | none => none
  | some _ => some (ex5_work_handler HZ { s with timer := none })

/-- The first `n` expiries, `none` when fewer than `n` can happen. -/
def fire_times (HZ : Nat) : Nat → State → Option State
  | 0, s => some s
  | n + 1, s =>
    match timer_fire HZ s with
    | none => none
    | some s1 => fire_times HZ n s1

end Ex5

/-! ## Ex1: enable/disable gating of a tasklet (`Source/ex1.c`) -/

namespace Ex1

/-- Modelled from the spec: the states of a deferred unit, section 3. -/
inductive UnitState where
  | Idle
  | Scheduled
  | Running
  | Killed
deriving DecidableEq, Repr

/-- What happened to a unit, in order: the calls made on it and the runs of its handler
(with the data word passed). -/
inductive Mark where
  | schedule
  | enable
  | disable
  | disable_nosync
  | exec (data : Nat)
deriving DecidableEq, Repr

/-- Modelled from the spec: a deferred unit (tasklet), section 3: disable count,
pending flag and state, with the handler data and the history of the unit. -/
structure DeferredUnit where
  disable_count : Nat
  pending : Bool
  state : UnitState
  data : Nat
  log : List Mark
deriving DecidableEq, Repr

/-- Modelled from the spec: `tasklet_schedule`, kernel code, is `schedule(unit)` of
section 4.1: ignored on a killed unit, a no-op on a pending one, otherwise the unit
becomes pending and is handed to the run queue when its disable count is 0. -/
def tasklet_schedule (u : DeferredUnit) : DeferredUnit :=
  let u1 := { u with log := u.log ++ [Mark.schedule] }
  if u1.state = UnitState.Killed then u1
  else if u1.pending then u1
  else if u1.disable_count = 0 then { u1 with pending := true, state := UnitState.Scheduled }
  else { u1 with pending := true }

/-- Modelled from the spec: `tasklet_enable`, kernel code, is `enable(unit)` of section
4.1: the disable count is decremented, and a pending unit whose count reaches 0 is
handed to the run queue. -/
def tasklet_enable (u : DeferredUnit) : DeferredUnit :=
  let u1 := { u with log := u.log ++ [Mark.enable], disable_count := u.disable_count - 1 }
  if u1.disable_count = 0 ∧ u1.pending = true ∧ u1.state ≠ UnitState.Killed then
    { u1 with state := UnitState.Scheduled }
  else u1

/-- Modelled from the spec: `tasklet_disable`, kernel code, is `disable_sync(unit)` of
section 4.1: the disable count is incremented (no run is in flight between two steps
of this model, so there is nothing to wait for). -/
def tasklet_disable (u : DeferredUnit) : DeferredUnit :=
  { u with log := u.log ++ [Mark.disable], disable_count := u.disable_count + 1 }

/-- Modelled from the spec: `tasklet_disable_nosync`, kernel code, is
`disable_nosync(unit)` of section 4.1. -/
def tasklet_disable_nosync (u : DeferredUnit) : DeferredUnit :=
  { u with log := u.log ++ [Mark.disable_nosync], disable_count := u.disable_count + 1 }

/-- Modelled from the spec: one pass of the run queue, kernel code.  A unit that was
handed to the run queue and whose disable count is 0 runs once and is idle and not
pending afterwards; a unit that was disabled in the meantime is left as it is. -/
def softirq (u : DeferredUnit) : DeferredUnit :=
  if u.state = UnitState.Scheduled ∧ u.disable_count = 0 then
    { u with log := u.log ++ [Mark.exec u.data], pending := false, state := UnitState.Idle }
  else u

/-- The steps of a run: the four calls of the tasklet interface used by `ex1_init`, and
a pass of the run queue. -/
inductive Op where
  | schedule
  | enable
  | disable
  | disable_nosync
  | softirq
deriving DecidableEq, Repr

/-- Effect of one step. -/
def step (u : DeferredUnit) : Op → DeferredUnit
  | Op.schedule => tasklet_schedule u
  | Op.enable => tasklet_enable u
  | Op.disable => tasklet_disable u
  | Op.disable_nosync => tasklet_disable_nosync u
  | Op.softirq => softirq u

/-- Effect of a sequence of steps. -/
def run (ops : List Op) (u : DeferredUnit) : DeferredUnit :=
  ops.foldl step u

/-- A number of passes of the run queue. -/
def passes (n : Nat) : List Op :=
  List.replicate n Op.softirq

/-- The tasklet `ex1_tasklet` as declared on line 13 with `DECLARE_TASKLET_DISABLED`:
disable count 1, not pending, data 123. -/
def ex1_tasklet : DeferredUnit :=
  { disable_count := 1, pending := false, state := UnitState.Idle, data := 123, log := [] }

/-- The calls of `ex1_init`, lines 15-63, in program order; `n i` is the number of
passes of the run queue that happen right after the call number `i`. -/
def ex1_init (n : Nat → Nat) : List Op :=
  Op.schedule :: passes (n 0) ++ Op.enable :: passes (n 1) ++ Op.schedule :: passes (n 2) ++
  Op.disable :: passes (n 3) ++ Op.schedule :: passes (n 4) ++ Op.enable :: passes (n 5) ++
  Op.schedule :: passes (n 6) ++ Op.disable_nosync :: passes (n 7) ++ Op.enable :: passes (n 8)

/-- An enabled, idle unit with the given data and history. -/
def idle_unit (data : Nat) (log : List Mark) : DeferredUnit :=
  { disable_count := 0, pending := false, state := UnitState.Idle, data := data, log := log }

/-- The sequence schedule, disable, disable, enable, enable with `n1 .. n4` passes of the
run queue after the first four calls and `n5 + 1` passes after the last one. -/
def nested_sequence (n1 n2 n3 n4 n5 : Nat) : List Op :=
  Op.schedule :: passes n1 ++ Op.disable :: passes n2 ++ Op.disable :: passes n3 ++
  Op.enable :: passes n4 ++ Op.enable :: passes (n5 + 1)

end Ex1

/-! ## Ex6, continued: the run queues, the list lock and the reachable states -/

namespace Ex6

/-- Largest value of the 32-bit `int` held by an `atomic_t`. -/
def INT_MAX : Int := 2147483647

/-- Smallest value of the 32-bit `int` held by an `atomic_t`. -/
def INT_MIN : Int := -2147483648

/-- Kernel primitive `atomic_inc` on the 32-bit value of an `atomic_t`: add 1 with two's
complement wraparound, so that `INT_MAX` becomes `INT_MIN`. -/
def atomic_inc (v : Int) : Int :=
  (v + 1 + 2147483648) % 4294967296 - 2147483648

/-- Kernel primitive `atomic_dec` on the 32-bit value of an `atomic_t`: subtract 1 with
two's complement wraparound, so that `INT_MIN` becomes `INT_MAX`. -/
def atomic_dec (v : Int) : Int :=
  (v - 1 + 2147483648) % 4294967296 - 2147483648

/-- A counter value that `atomic_inc` increments without wrapping: a 32-bit value below
`INT_MAX`. -/
def can_inc (v : Int) : Prop :=
  INT_MIN ≤ v ∧ v < INT_MAX

/-- A counter value that `atomic_dec` decrements without wrapping: a 32-bit value above
`INT_MIN`. -/
def can_dec (v : Int) : Prop :=
  INT_MIN < v ∧ v ≤ INT_MAX

/-- Modelled from the spec: the run of one unit by the tasklet engine, kernel code.
Section 4.1: the unit stops being pending and its handler is called, here
`generic_tasklet_handler` with the data word of the tasklet. -/
def run_tasklet (a : Nat) (s : Registry) : Registry :=
  let e := s.mem a
  generic_tasklet_handler e.tasklet.data
    (store s a { e with tasklet := { e.tasklet with sched := false } })

/-- Modelled from the spec: one step of the tasklet engine, kernel code.  Sections 4.4
and 5: the head of the expedited run queue is taken when that queue is not empty,
otherwise the head of the normal run queue; section 4.1: a unit whose disable count is
not 0 is not runnable, it leaves the run queue and stays pending.  The result is `none`
when both queues are empty, otherwise the unit that was run (if any) and the new
state. -/
def tasklet_action (s : Registry) : Option (Option Nat × Registry) :=
  match s.tasklet_hi_vec with
  | a :: rest =>
    if (s.mem a).tasklet.count = 0 then
      some (some a, run_tasklet a { s with tasklet_hi_vec := rest })
    else
      some (none, { s with tasklet_hi_vec := rest })
  | [] =>
    match s.tasklet_vec with
    | a :: rest =>
      if (s.mem a).tasklet.count = 0 then
        some (some a, run_tasklet a { s with tasklet_vec := rest })
      else
        some (none, { s with tasklet_vec := rest })
    | [] => none

/-- Steps of the engine until both run queues are empty, at most `fuel` of them: the
units run, in order, and the final state; `none` when the bound was reached first. -/
def drain : Nat → Registry → Option (List Nat × Registry)
  | 0, _ => none
  | fuel + 1, s =>
    match tasklet_action s with
    | none => some ([], s)
    | some (r, s1) =>
      match drain fuel s1 with
      | none => none
      | some (l, s2) => some (r.toList ++ l, s2)

/-- The units of a run queue that are enabled in state `s`. -/
def enabled_units (s : Registry) (q : List Nat) : List Nat :=
  q.filter fun a => decide ((s.mem a).tasklet.count = 0)

/-- Effect of one call of a trace on the list lock `tasklet_list_lock`: `held` is the
state of the lock before the call, the result is its state after the call, and `none`
means that the call breaks the discipline: taking the lock while it is held, releasing
it while it is free, unlinking an entry without holding it, or calling `tasklet_kill`
or `kmem_cache_free` while holding it. -/
def lock_step (held : Bool) : Ev → Option Bool
  | Ev.spin_lock => if held then none else some true
  | Ev.spin_unlock => if held then some false else none
  | Ev.list_del _ => if held then some held else none
  | Ev.tasklet_kill _ => if held then none else some held
  | Ev.kmem_cache_free _ => if held then none else some held
  | Ev.remove_proc_entry => some held
  | Ev.kmem_cache_destroy => some held

/-- Replay of a whole trace on the list lock, starting with the lock in state `held`:
the final state of the lock, `none` when some call breaks the discipline. -/
def lock_replay : Bool → List Ev → Option Bool
  | held, [] => some held
  | held, e :: rest =>
    match lock_step held e with
    | none => none
    | some h => lock_replay h rest

/-- The registry after the first call of `ex6_init`: one entry, at address 10. -/
def after_first : Registry :=
  (create_and_schedule_tasklet 100 false (some 10) (boot fun _ => default_entry)).2

end Ex6

/-! ## Ex7, Ex4, Ex8: work items on a kernel work queue (`Source/ex7.c`, `ex4.c`, `ex8.c`) -/

namespace Ex7

/-- Modelled from the spec: a kernel work queue, section 3.  `queue` holds the pending
items in order, head first; `running` is the item whose handler is in flight;
`timers` holds the delayed items whose timer is armed; `log` lists the handler runs
that have completed, oldest first.  Items are named by their address. -/
structure WorkQueue where
  queue : List Nat
  running : Option Nat
  timers : List Nat
  log : List Nat
deriving DecidableEq, Repr

/-- The work queue before anything was submitted. -/
def empty : WorkQueue :=
  { queue := [], running := none, timers := [], log := [] }

/-- Modelled from the spec: `schedule_work` and `queue_work`, kernel code, are
`submit(item)` of section 4.2: a pending item is left alone and `false` is returned,
otherwise the item is appended at the tail and `true` is returned. -/
def schedule_work (x : Nat) (s : WorkQueue) : Bool × WorkQueue :=
  if x ∈ s.queue then (false, s) else (true, { s with queue := s.queue ++ [x] })

/-- Modelled from the spec: `schedule_delayed_work` and `queue_delayed_work`, kernel
code, are `schedule_after` of section 4.3 (the length of the delay is not kept): a
timer is armed for the item unless it is already armed or queued. -/
def schedule_delayed_work (x : Nat) (s : WorkQueue) : Bool × WorkQueue :=
  if x ∈ s.timers ∨ x ∈ s.queue then (false, s)
  else (true, { s with timers := s.timers ++ [x] })

/-- Modelled from the spec: expiry of the timer of a delayed item, kernel code.  Section
4.3: the timer is gone and the item is submitted. -/
def timer_expire (x : Nat) (s : WorkQueue) : WorkQueue :=
  if x ∈ s.timers then (schedule_work x { s with timers := s.timers.erase x }).2 else s

/-- Modelled from the spec: one step of a worker, kernel code.  Section 4.2: pop the
head item and execute it; a handler in flight returns first. -/
def worker_step (s : WorkQueue) : WorkQueue :=
  match s.running with
  | some x => { s with running := none, log := s.log ++ [x] }
  | none =>
    match s.queue with
    | [] => s
    | x :: rest => { s with queue := rest, running := some x }

/-- A number of steps of the worker. -/
def worker_steps : Nat → WorkQueue → WorkQueue
  | 0, s => s
  | n + 1, s => worker_steps n (worker_step s)

/-- Modelled from the spec: `cancel_work_sync`, kernel code, is `cancel_sync(item)` of
section 4.2: a run of the item that is in flight is waited for, a queued item is
removed; `true` ("was pending") when the item was queued or running, `false` ("not
pending") otherwise. -/
def cancel_work_sync (x : Nat) (s : WorkQueue) : Bool × WorkQueue :=
  let was_running := decide (s.running = some x)
  let s1 := if was_running then worker_step s else s
  if x ∈ s1.queue then (true, { s1 with queue := s1.queue.erase x })
  else (was_running, s1)

/-- Modelled from the spec: `cancel_delayed_work_sync`, kernel code, is `cancel_sync(task)`
of section 4.3: an armed timer is disarmed ("cancelled, never ran"), otherwise the item
is cancelled as a work item. -/
def cancel_delayed_work_sync (x : Nat) (s : WorkQueue) : Bool × WorkQueue :=
  if x ∈ s.timers then (true, { s with timers := s.timers.erase x })
  else cancel_work_sync x s

/-- Address of the static work item `normal_work` (any value different from that of
`delayed_work` will do). -/
def normal_work : Nat := 1

/-- Address of the static delayed work item `delayed_work`. -/
def delayed_work : Nat := 2

/-- Function `ex7_init`, lines 23-44: the results of the two scheduling calls (which
select the messages printed) and the new state. -/
def ex7_init (s : WorkQueue) : (Bool × Bool) × WorkQueue :=
  let r1 := schedule_work normal_work s
  let r2 := schedule_delayed_work delayed_work r1.2
  ((r1.1, r2.1), r2.2)

/-- Function `ex7_exit`, lines 46-68: the results of the two cancellations (which select
the messages printed) and the new state. -/
def ex7_exit (s : WorkQueue) : (Bool × Bool) × WorkQueue :=
  let r1 := cancel_work_sync normal_work s
  let r2 := cancel_delayed_work_sync delayed_work r1.2
  ((r1.1, r2.1), r2.2)

/-- A queue on which item 5 is pending behind item 4, and item 3 has completed. -/
def sample : WorkQueue :=
  { queue := [4, 5], running := none, timers := [], log := [3] }

end Ex7

namespace Ex4

/-- Address of the static work item `ex4_work`. -/
def ex4_work : Nat := 1

/-- Function `ex4_init`, lines 16-30: the result of `schedule_work` and the new state. -/
def ex4_init (s : Ex7.WorkQueue) : Bool × Ex7.WorkQueue :=
  Ex7.schedule_work ex4_work s

/-- Function `ex4_exit`, lines 32-45: the result of `cancel_work_sync` and the new
state. -/
def ex4_exit (s : Ex7.WorkQueue) : Bool × Ex7.WorkQueue :=
  Ex7.cancel_work_sync ex4_work s

end Ex4

namespace Ex8

/-- The globals of `ex8.c`: whether `my_unbound_wq` is non-NULL, and the state of that
work queue. -/
structure State where
  my_unbound_wq : Bool
  wq : Ex7.WorkQueue
deriving DecidableEq, Repr

/-- Kernel errno constant `ENOMEM`. -/
def ENOMEM : Int := 12

/-- Function `ex8_init`, lines 27-56.  `alloc_ok` says whether `alloc_workqueue`
succeeds.  Returns the C return value and the new state. -/
def ex8_init (alloc_ok : Bool) (s : State) : Int × State :=
  if !alloc_ok then (-ENOMEM, { s with my_unbound_wq := false })
  else
    let r1 := Ex7.schedule_work Ex7.normal_work Ex7.empty
    let r2 := Ex7.schedule_delayed_work Ex7.delayed_work r1.2
    (0, { my_unbound_wq := true, wq := r2.2 })

/-- Function `ex8_exit`, lines 58-92: the results of the two cancellations, when they are
made, and the new state. -/
def ex8_exit (s : State) : Option (Bool × Bool) × State :=
  if s.my_unbound_wq then
    let r1 := Ex7.cancel_work_sync Ex7.normal_work s.wq
    let r2 := Ex7.cancel_delayed_work_sync Ex7.delayed_work r1.2
    (some (r1.1, r2.1), { my_unbound_wq := false, wq := r2.2 })
  else (none, s)

end Ex8

/-! ## Theorems on the work queue -/

namespace Ex3

theorem submit_all_snd (items : List (Nat × Int)) (s : State) :
    (submit_all items s).2 = { s with work_list := s.work_list ++ items.map item_of } := by
  induction items generalizing s with
  | nil => simp [submit_all]
  | cons p rest ih =>
    obtain ⟨f, id⟩ := p
    simp [submit_all, submit_work, ih, item_of]

theorem submit_all_fst (items : List (Nat × Int)) (s : State) :
    (submit_all items s).1 = List.replicate items.length 0 := by
  induction items generalizing s with
  | nil => simp [submit_all]
  | cons p rest ih =>
    obtain ⟨f, id⟩ := p
    simp [submit_all, submit_work, ih, List.replicate_succ]

theorem calls_append (t1 t2 : List Event) : calls (t1 ++ t2) = calls t1 ++ calls t2 := by
  induction t1 with
  | nil => simp [calls]
  | cons e rest ih => cases e <;> simp [calls, ih]

theorem calls_run_events (l : List simple_work_t) : calls (l.flatMap run_events) = l := by
  induction l with
  | nil => simp [calls]
  | cons w rest ih =>
    rw [List.flatMap_cons, calls_append, ih]
    simp [run_events, calls]

theorem calls_drop_events (l : List simple_work_t) : calls (l.flatMap drop_events) = [] := by
  induction l with
  | nil => simp [calls]
  | cons w rest ih =>
    rw [List.flatMap_cons, calls_append, ih]
    simp [drop_events, calls]

theorem worker_inner_loop_drains (fuel : Nat) (s : State) (h : s.work_list.length < fuel) :
    worker_inner_loop fuel s =
      some { s with work_list := [], trace := s.trace ++ s.work_list.flatMap run_events } := by
  induction fuel generalizing s with
  | zero => omega
  | succ n ih =>
    obtain ⟨l, st, wt, pc, tr⟩ := s
    cases l with
    | nil => simp [worker_inner_loop, drain_iter]
    | cons w rest =>
      simp only [worker_inner_loop, drain_iter]
      rw [ih _ (by simpa using h)]
      simp [List.flatMap_cons, run_events]

theorem cleanup_loop_frees (l : List simple_work_t) (s : State) (h : s.work_list = l) :
    cleanup_loop l s =
      { s with work_list := [], trace := s.trace ++ l.flatMap drop_events } := by
  induction l generalizing s with
  | nil =>
    obtain ⟨l0, st, wt, pc, tr⟩ := s
    simp only at h
    subst h
    simp [cleanup_loop]
  | cons w rest ih =>
    obtain ⟨l0, st, wt, pc, tr⟩ := s
    simp only at h
    subst h
    simp only [cleanup_loop]
    rw [ih _ (by simp)]
    simp [List.flatMap_cons, drop_events]

theorem worker_join_exited (fuel : Nat) (s : State) (h : s.pc = Pc.exited) :
    worker_join fuel s = some s := by
  cases fuel <;> simp [worker_join, h]

theorem worker_join_draining (l : List simple_work_t) (fuel : Nat) (s : State)
    (hl : s.work_list = l) (hpc : s.pc = Pc.draining) (hstop : s.should_stop = true)
    (hfuel : l.length + 2 ≤ fuel) :
    worker_join fuel s =
      some { s with work_list := [], pc := Pc.exited,
                    trace := s.trace ++ l.flatMap run_events } := by
  induction l generalizing s fuel with
  | nil =>
    obtain ⟨l0, st, wt, pc, tr⟩ := s
    simp only at hl hpc hstop
    subst hl hpc hstop
    obtain ⟨n, rfl⟩ : ∃ n, fuel = n + 2 := ⟨fuel - 2, by simp at hfuel; omega⟩
    simp [worker_join, worker_thread_fn, drain_iter, worker_join_exited]
  | cons w rest ih =>
    obtain ⟨l0, st, wt, pc, tr⟩ := s
    simp only at hl hpc hstop
    subst hl hpc hstop
    obtain ⟨n, rfl⟩ : ∃ n, fuel = n + 1 := ⟨fuel - 1, by simp at hfuel; omega⟩
    simp only [worker_join, worker_thread_fn, drain_iter]
    rw [if_neg (by decide)]
    rw [ih n _ rfl rfl rfl (by simp at hfuel; omega)]
    simp [List.flatMap_cons, run_events]

theorem worker_join_outer (fuel : Nat) (s : State) (hpc : s.pc ≠ Pc.draining)
    (hstop : s.should_stop = true) (hfuel : 2 ≤ fuel) :
    worker_join fuel s = some { s with pc := Pc.exited } := by
  obtain ⟨n, rfl⟩ : ∃ n, fuel = n + 2 := ⟨fuel - 2, by omega⟩
  obtain ⟨l0, st, wt, pc, tr⟩ := s
  simp only at hpc hstop
  subst hstop
  cases pc <;> simp_all [worker_join, worker_thread_fn, worker_join_exited]

theorem worker_thread_fn_keeps_order (s : State) :
    calls (worker_thread_fn s).trace ++ (worker_thread_fn s).work_list =
      calls s.trace ++ s.work_list := by
  obtain ⟨l, st, wt, pc, tr⟩ := s
  cases pc
  · cases st <;> simp [worker_thread_fn]
  · by_cases h : (!l.isEmpty || st) = true
    · simp only [worker_thread_fn, if_pos h]
    · simp only [worker_thread_fn, if_neg h]
  · cases st <;> simp [worker_thread_fn]
  · cases l with
    | nil => simp [worker_thread_fn, drain_iter]
    | cons w rest => simp [worker_thread_fn, drain_iter, calls_append, calls]
  · simp [worker_thread_fn]

theorem run_actions_keeps_order (acts : List Action) (s : State) :
    calls (run_actions acts s).trace ++ (run_actions acts s).work_list =
      calls s.trace ++ s.work_list ++ submitted acts := by
  induction acts generalizing s with
  | nil => simp [run_actions, submitted]
  | cons a rest ih =>
    have hcons : run_actions (a :: rest) s = run_actions rest (act s a) := rfl
    rw [hcons, ih]
    cases a with
    | submit f id => simp [act, submit_work, submitted]
    | worker => simp [act, submitted, worker_thread_fn_keeps_order]

/-- C1: after any run of successful `submit_work` calls on a queue, every call returned
0, the queue holds the earlier items followed by the submitted ones in submission
order, and the inner loop of `worker_thread_fn` (given enough passes) terminates with
the queue empty, having invoked the callbacks of exactly these items, once each and in
queue order.  Moreover, however submissions and transitions of the worker thread are
interleaved, the callbacks invoked so far followed by the items still queued are the
earlier ones followed by the submitted items in submission order, so that an item
submitted before another never has its callback invoked after it. -/
theorem work_queue_fifo (s : State) (items : List (Nat × Int)) (fuel : Nat)
    (acts : List Action) (hfuel : s.work_list.length + items.length < fuel) :
    (submit_all items s).1 = List.replicate items.length 0 ∧
    (submit_all items s).2.work_list = s.work_list ++ items.map item_of ∧
    (∃ s2, worker_inner_loop fuel (submit_all items s).2 = some s2 ∧
      s2.work_list = [] ∧
      s2.trace = s.trace ++ (s.work_list ++ items.map item_of).flatMap run_events ∧
      calls s2.trace = calls s.trace ++ (s.work_list ++ items.map item_of)) ∧
    calls (run_actions acts s).trace ++ (run_actions acts s).work_list =
      calls s.trace ++ s.work_list ++ submitted acts := by
  refine ⟨submit_all_fst items s, by rw [submit_all_snd], ?_, run_actions_keeps_order acts s⟩
  rw [submit_all_snd, worker_inner_loop_drains _ _ (by simpa using hfuel)]
  refine ⟨_, rfl, rfl, rfl, ?_⟩
  simp only [calls_append, calls_run_events]

/-- Witness of `work_queue_fifo`: three submissions on the fresh queue. -/
theorem work_queue_fifo_witness :
    (fresh.work_list.length + [((7 : Nat), (1 : Int)), (7, 2), (7, 3)].length < 4) ∧
    ∃ s2, worker_inner_loop 4 (submit_all [(7, 1), (7, 2), (7, 3)] fresh).2 = some s2 ∧
      s2.work_list = [] ∧
      s2.trace = fresh.trace ++
        (fresh.work_list ++ [(7, 1), (7, 2), (7, 3)].map item_of).flatMap run_events ∧
      calls s2.trace = calls fresh.trace ++
        (fresh.work_list ++ [(7, 1), (7, 2), (7, 3)].map item_of) :=
  ⟨by decide, (work_queue_fifo fresh [(7, 1), (7, 2), (7, 3)] 4 [] (by decide)).2.2.1⟩

/-- C10 (amended): `ex3_exit`, given enough worker transitions, returns with the queue
empty.  When the stop signal finds the worker at one of its outer-loop checks (or there
is no worker), no callback is invoked: every item still queued is freed by the cleanup
loop without being executed.  When it finds the worker inside its inner drain loop,
the worker first executes every item still queued and the cleanup loop frees nothing. -/
theorem destroy_does_not_drain (s : State) (fuel : Nat)
    (hfuel : s.work_list.length + 2 ≤ fuel) :
    ∃ s1, ex3_exit fuel s = some s1 ∧ s1.work_list = [] ∧
      (s.worker_thread = true → s1.pc = Pc.exited) ∧
      (¬ (s.worker_thread = true ∧ s.pc = Pc.draining) →
        s1.trace = s.trace ++ s.work_list.flatMap drop_events ∧
        calls s1.trace = calls s.trace) ∧
      (s.worker_thread = true ∧ s.pc = Pc.draining →
        s1.trace = s.trace ++ s.work_list.flatMap run_events ∧
        calls s1.trace = calls s.trace ++ s.work_list) := by
  obtain ⟨l, st, wt, pc, tr⟩ := s
  cases wt with
  | false =>
    simp only [ex3_exit, Option.map_some', Bool.false_eq_true, if_false]
    rw [cleanup_loop_frees l _ rfl]
    simp [calls_append, calls_drop_events]
  | true =>
    by_cases hpc : pc = Pc.draining
    · subst hpc
      simp only [ex3_exit, kthread_stop, if_true]
      rw [worker_join_draining l fuel _ rfl rfl rfl hfuel]
      simp only [Option.map_some']
      rw [cleanup_loop_frees [] _ rfl]
      simp [calls_append, calls_run_events]
    · simp only [ex3_exit, kthread_stop, if_true]
      rw [worker_join_outer fuel _ hpc rfl (by omega)]
      simp only [Option.map_some']
      rw [cleanup_loop_frees l _ rfl]
      simp [calls_append, calls_drop_events, hpc]

/-- Witness of `destroy_does_not_drain`: the stop signal finds the worker waiting. -/
theorem destroy_does_not_drain_witness :
    (stop_at_wait.work_list.length + 2 ≤ 4) ∧
    ∃ s1, ex3_exit 4 stop_at_wait = some s1 ∧ s1.work_list = [] ∧
      (stop_at_wait.worker_thread = true → s1.pc = Pc.exited) ∧
      (¬ (stop_at_wait.worker_thread = true ∧ stop_at_wait.pc = Pc.draining) →
        s1.trace = stop_at_wait.trace ++ stop_at_wait.work_list.flatMap drop_events ∧
        calls s1.trace = calls stop_at_wait.trace) ∧
      (stop_at_wait.worker_thread = true ∧ stop_at_wait.pc = Pc.draining →
        s1.trace = stop_at_wait.trace ++ stop_at_wait.work_list.flatMap run_events ∧
        calls s1.trace = calls stop_at_wait.trace ++ stop_at_wait.work_list) :=
  ⟨by decide, destroy_does_not_drain stop_at_wait 4 (by decide)⟩

/-- C10 (as stated) fails: `mid_drain` is reached from the fresh queue by three
submissions and four worker transitions; there items 2 and 3 are still queued when
`ex3_exit` raises the stop signal, and the worker invokes both callbacks before it
exits. -/
theorem destroy_mid_drain_executes :
    worker_thread_fn (worker_thread_fn (worker_thread_fn (worker_thread_fn
      (submit_all [(7, 1), (7, 2), (7, 3)] fresh).2))) = mid_drain ∧
    mid_drain.work_list = [{ func := 7, data := 2 }, { func := 7, data := 3 }] ∧
    calls mid_drain.trace = [{ func := 7, data := 1 }] ∧
    (ex3_exit 4 mid_drain).map (fun s => calls s.trace) =
      some [{ func := 7, data := 1 }, { func := 7, data := 2 }, { func := 7, data := 3 }] ∧
    (ex3_exit 4 mid_drain).map (fun s => calls s.trace) ≠ some (calls mid_drain.trace) := by
  decide

end Ex3

/-! ## Theorems on the tasklet registry -/

namespace Ex6

theorem create_some_fields (task_data : Nat) (high_prio : Bool) (entry : Nat) (s : Registry) :
    (create_and_schedule_tasklet task_data high_prio (some entry) s).1 = some entry ∧
    (create_and_schedule_tasklet task_data high_prio (some entry) s).2.active_tasklets =
      s.active_tasklets ++ [entry] ∧
    (create_and_schedule_tasklet task_data high_prio (some entry) s).2.created_count =
      s.created_count + 1 ∧
    (create_and_schedule_tasklet task_data high_prio (some entry) s).2.scheduled_count =
      s.scheduled_count + 1 ∧
    (create_and_schedule_tasklet task_data high_prio (some entry) s).2.executed_count =
      s.executed_count ∧
    (create_and_schedule_tasklet task_data high_prio (some entry) s).2.high_prio_count =
      s.high_prio_count + (if high_prio then 1 else 0) ∧
    (create_and_schedule_tasklet task_data high_prio (some entry) s).2.pending_count =
      s.pending_count + 1 ∧
    (create_and_schedule_tasklet task_data high_prio (some entry) s).2.tasklet_cache =
      s.tasklet_cache := by
  cases high_prio <;>
    simp [create_and_schedule_tasklet, tasklet_schedule, tasklet_hi_schedule, store,
      tasklet_init]

theorem create_some_mem (task_data : Nat) (high_prio : Bool) (entry : Nat) (s : Registry) :
    (create_and_schedule_tasklet task_data high_prio (some entry) s).2.mem =
      fun b => if b = entry then
        { tasklet := { sched := true, count := 0, data := entry }, data := task_data,
          high_priority := high_prio, executed := false }
      else s.mem b := by
  cases high_prio <;>
    · funext b
      by_cases hb : b = entry <;>
        simp [create_and_schedule_tasklet, tasklet_schedule, tasklet_hi_schedule, store,
          tasklet_init, hb]

theorem create_some_queues (task_data : Nat) (high_prio : Bool) (entry : Nat) (s : Registry) :
    (create_and_schedule_tasklet task_data high_prio (some entry) s).2.tasklet_hi_vec =
      (if high_prio then s.tasklet_hi_vec ++ [entry] else s.tasklet_hi_vec) ∧
    (create_and_schedule_tasklet task_data high_prio (some entry) s).2.tasklet_vec =
      (if high_prio then s.tasklet_vec else s.tasklet_vec ++ [entry]) := by
  cases high_prio <;>
    simp [create_and_schedule_tasklet, tasklet_schedule, tasklet_hi_schedule, store,
      tasklet_init]

theorem scan_pending_eq (s : Registry) (l : List Nat) (acc : Int) :
    scan_pending s l acc =
      acc + (l.countP fun a => !(s.mem a).executed && (s.mem a).tasklet.sched : Nat) := by
  induction l generalizing acc with
  | nil => simp [scan_pending]
  | cons a rest ih =>
    by_cases h : (!(s.mem a).executed && (s.mem a).tasklet.sched) = true
    · rw [scan_pending, if_pos h, ih, List.countP_cons, if_pos h]
      push_cast
      ring
    · rw [scan_pending, if_neg h, ih, List.countP_cons, if_neg h]
      simp

theorem run_handlers_fields (order : List Nat) (s : Registry) :
    (run_handlers order s).active_tasklets = s.active_tasklets ∧
    (run_handlers order s).created_count = s.created_count ∧
    (run_handlers order s).scheduled_count = s.scheduled_count ∧
    (run_handlers order s).high_prio_count = s.high_prio_count ∧
    (run_handlers order s).executed_count = s.executed_count + order.length ∧
    (run_handlers order s).pending_count = s.pending_count - order.length := by
  induction order generalizing s with
  | nil => simp [run_handlers]
  | cons a rest ih =>
    obtain ⟨h1, h2, h3, h4, h5, h6⟩ := ih (generic_tasklet_handler a s)
    simp only [run_handlers, h1, h2, h3, h4, h5, h6]
    simp only [generic_tasklet_handler, store, List.length_cons]
    push_cast
    refine ⟨trivial, trivial, trivial, trivial, by ring, by ring⟩

theorem run_handlers_keeps_executed (order : List Nat) (s : Registry) (a : Nat)
    (h : (s.mem a).executed = true) : ((run_handlers order s).mem a).executed = true := by
  induction order generalizing s with
  | nil => simpa [run_handlers] using h
  | cons b rest ih =>
    apply ih
    by_cases hab : a = b <;> simp [generic_tasklet_handler, store, hab, h]

theorem run_handlers_executed (order : List Nat) (s : Registry) (a : Nat) (h : a ∈ order) :
    ((run_handlers order s).mem a).executed = true := by
  induction order generalizing s with
  | nil => simp at h
  | cons b rest ih =>
    by_cases hab : a = b
    · subst hab
      exact run_handlers_keeps_executed rest _ a (by simp [generic_tasklet_handler, store])
    · exact ih _ (by simpa [hab] using h)

theorem exit_loop_spec (l : List Nat) (s : Registry) (tr : List Ev)
    (h : s.active_tasklets = l) :
    (exit_loop l (s, tr)).2 = tr ++ l.flatMap exit_events ∧
    (exit_loop l (s, tr)).1.active_tasklets = [] ∧
    (exit_loop l (s, tr)).1.tasklet_cache = s.tasklet_cache := by
  induction l generalizing s tr with
  | nil => simp [exit_loop, h]
  | cons a rest ih =>
    have := ih (tasklet_kill a { s with active_tasklets := s.active_tasklets.erase a })
      (tr ++ exit_events a) (by simp [tasklet_kill, store, h])
    simp only [exit_loop, this, List.flatMap_cons, List.append_assoc]
    simp [tasklet_kill, store]

theorem count_exit_events (l : List Nat) (a : Nat) :
    (l.flatMap exit_events).count (Ev.list_del a) = l.count a ∧
    (l.flatMap exit_events).count (Ev.tasklet_kill a) = l.count a ∧
    (l.flatMap exit_events).count (Ev.kmem_cache_free a) = l.count a := by
  induction l with
  | nil => simp
  | cons b rest ih =>
    obtain ⟨h1, h2, h3⟩ := ih
    rw [List.flatMap_cons, List.count_append, List.count_append, List.count_append, h1, h2, h3]
    by_cases hab : b = a
    · subst hab
      simp [exit_events, List.count_cons]
      omega
    · have hba : ¬ a = b := fun h => hab h.symm
      simp [exit_events, List.count_cons, hab, hba]

theorem atomic_inc_eq (v : Int) (h : can_inc v) : atomic_inc v = v + 1 := by
  obtain ⟨h1, h2⟩ := h
  simp only [INT_MIN, INT_MAX] at h1 h2
  unfold atomic_inc
  omega

theorem atomic_dec_eq (v : Int) (h : can_dec v) : atomic_dec v = v - 1 := by
  obtain ⟨h1, h2⟩ := h
  simp only [INT_MIN, INT_MAX] at h1 h2
  unfold atomic_dec
  omega

/-- The 32-bit primitives do wrap at the ends of the range. -/
theorem atomic_wraps :
    atomic_inc INT_MAX = INT_MIN ∧ atomic_dec INT_MIN = INT_MAX ∧
    atomic_inc 0 = 1 ∧ atomic_dec 0 = -1 := by
  decide

/-- C5: when the slab allocation succeeds and the counters to be incremented are 32-bit
values below `INT_MAX` (so that `atomic_inc` does not wrap), `create_and_schedule_tasklet`
returns the new entry, whose fields are the payload, the priority flag and
`executed = false`; the live list is the old one with the entry appended at its tail;
`created`, `scheduled` and `pending` grow by 1, `high_priority` grows by 1 exactly when
the priority flag is set, `executed` is unchanged, and these are the values that the
32-bit `atomic_inc` gives; the tasklet of the entry is scheduled (bit set, and queued
on the expedited run queue when the flag is set, on the normal one otherwise); no other
object is written. -/
theorem create_tracked_success (s : Registry) (task_data : Nat) (high_prio : Bool)
    (entry : Nat) (hcreated : can_inc s.created_count)
    (hscheduled : can_inc s.scheduled_count) (hpending : can_inc s.pending_count)
    (hhigh : high_prio = true → can_inc s.high_prio_count) :
    ∃ s1, create_and_schedule_tasklet task_data high_prio (some entry) s = (some entry, s1) ∧
      (s1.mem entry).data = task_data ∧
      (s1.mem entry).high_priority = high_prio ∧
      (s1.mem entry).executed = false ∧
      s1.active_tasklets = s.active_tasklets ++ [entry] ∧
      s1.created_count = s.created_count + 1 ∧
      s1.scheduled_count = s.scheduled_count + 1 ∧
      s1.pending_count = s.pending_count + 1 ∧
      s1.high_prio_count = s.high_prio_count + (if high_prio then 1 else 0) ∧
      s1.executed_count = s.executed_count ∧
      (s1.mem entry).tasklet.sched = true ∧
      s1.tasklet_hi_vec = (if high_prio then s.tasklet_hi_vec ++ [entry] else s.tasklet_hi_vec) ∧
      s1.tasklet_vec = (if high_prio then s.tasklet_vec else s.tasklet_vec ++ [entry]) ∧
      (∀ b, b ≠ entry → s1.mem b = s.mem b) ∧
      s1.created_count = atomic_inc s.created_count ∧
      s1.scheduled_count = atomic_inc s.scheduled_count ∧
      s1.pending_count = atomic_inc s.pending_count ∧
      s1.high_prio_count =
        (if high_prio then atomic_inc s.high_prio_count else s.high_prio_count) := by
  obtain ⟨h0, h1, h2, h3, h4, h5, h6, -⟩ := create_some_fields task_data high_prio entry s
  obtain ⟨q1, q2⟩ := create_some_queues task_data high_prio entry s
  have hm := create_some_mem task_data high_prio entry s
  refine ⟨(create_and_schedule_tasklet task_data high_prio (some entry) s).2,
    Prod.ext h0 rfl, ?_, ?_, ?_, h1, h2, h3, h6, h5, h4, ?_, q1, q2, ?_, ?_, ?_, ?_, ?_⟩
  · simp [hm]
  · simp [hm]
  · simp [hm]
  · simp [hm]
  · intro b hb
    simp [hm, hb]
  · rw [h2, atomic_inc_eq _ hcreated]
  · rw [h3, atomic_inc_eq _ hscheduled]
  · rw [h6, atomic_inc_eq _ hpending]
  · rw [h5]
    cases high_prio with
    | false => simp
    | true => simp [atomic_inc_eq _ (hhigh rfl)]

/-- Witness of `create_tracked_success`: the second call of `ex6_init`, made in the state
left by the first one. -/
theorem create_tracked_success_witness :
    (can_inc after_first.created_count ∧ can_inc after_first.scheduled_count ∧
      can_inc after_first.pending_count ∧
      (true = true → can_inc after_first.high_prio_count)) ∧
    ∃ s1, create_and_schedule_tasklet 200 true (some 11) after_first = (some 11, s1) ∧
      s1.active_tasklets = [10, 11] ∧
      s1.created_count = 2 ∧ s1.scheduled_count = 2 ∧ s1.pending_count = 2 ∧
      s1.high_prio_count = 1 ∧ s1.executed_count = 0 := by
  have hb : can_inc after_first.created_count ∧ can_inc after_first.scheduled_count ∧
      can_inc after_first.pending_count ∧
      (true = true → can_inc after_first.high_prio_count) :=
    ⟨⟨by decide, by decide⟩, ⟨by decide, by decide⟩, ⟨by decide, by decide⟩,
      fun _ => ⟨by decide, by decide⟩⟩
  obtain ⟨s1, h0, -, -, -, hl, hc, hs, hp, hh, he, -⟩ :=
    create_tracked_success after_first 200 true 11 hb.1 hb.2.1 hb.2.2.1 hb.2.2.2
  exact ⟨hb, s1, h0, hl, hc, hs, hp, hh, he⟩

/-- C6: when the slab allocation fails, `create_and_schedule_tasklet` returns NULL and
the registry (live list, objects, the five counters and both run queues) is the one it
was called with. -/
theorem create_tracked_exhausted (s : Registry) (task_data : Nat) (high_prio : Bool) :
    create_and_schedule_tasklet task_data high_prio none s = (none, s) := by
  rfl

/-- C7: when the `executed` counter is a 32-bit value below `INT_MAX` and the `pending`
counter one above `INT_MIN` (so that `atomic_inc` and `atomic_dec` do not wrap), one run
of `generic_tasklet_handler` on an entry sets its `executed` flag, adds 1 to the
`executed` counter and subtracts 1 from the `pending` counter, which are the values
that the 32-bit `atomic_inc` and `atomic_dec` give; `created`, `scheduled`,
`high_priority`, the live list, both run queues, the other fields of the entry and
every other object are unchanged. -/
theorem handler_completion_effect (s : Registry) (entry : Nat)
    (hexecuted : can_inc s.executed_count) (hpending : can_dec s.pending_count) :
    ((generic_tasklet_handler entry s).mem entry).executed = true ∧
    (generic_tasklet_handler entry s).executed_count = s.executed_count + 1 ∧
    (generic_tasklet_handler entry s).pending_count = s.pending_count - 1 ∧
    (generic_tasklet_handler entry s).created_count = s.created_count ∧
    (generic_tasklet_handler entry s).scheduled_count = s.scheduled_count ∧
    (generic_tasklet_handler entry s).high_prio_count = s.high_prio_count ∧
    (generic_tasklet_handler entry s).active_tasklets = s.active_tasklets ∧
    (generic_tasklet_handler entry s).tasklet_cache = s.tasklet_cache ∧
    (generic_tasklet_handler entry s).tasklet_vec = s.tasklet_vec ∧
    (generic_tasklet_handler entry s).tasklet_hi_vec = s.tasklet_hi_vec ∧
    ((generic_tasklet_handler entry s).mem entry).data = (s.mem entry).data ∧
    ((generic_tasklet_handler entry s).mem entry).high_priority =
      (s.mem entry).high_priority ∧
    ((generic_tasklet_handler entry s).mem entry).tasklet = (s.mem entry).tasklet ∧
    (∀ b, b ≠ entry → (generic_tasklet_handler entry s).mem b = s.mem b) ∧
    (generic_tasklet_handler entry s).executed_count = atomic_inc s.executed_count ∧
    (generic_tasklet_handler entry s).pending_count = atomic_dec s.pending_count := by
  refine ⟨?_, rfl, rfl, rfl, rfl, rfl, rfl, rfl, rfl, rfl, ?_, ?_, ?_, ?_, ?_, ?_⟩
  · simp [generic_tasklet_handler, store]
  · simp [generic_tasklet_handler, store]
  · simp [generic_tasklet_handler, store]
  · simp [generic_tasklet_handler, store]
  · intro b hb
    simp [generic_tasklet_handler, store, hb]
  · rw [atomic_inc_eq _ hexecuted]
    rfl
  · rw [atomic_dec_eq _ hpending]
    rfl

/-- Witness of `handler_completion_effect`: the handler runs on the entry created by the
first call of `ex6_init`. -/
theorem handler_completion_effect_witness :
    (can_inc after_first.executed_count ∧ can_dec after_first.pending_count) ∧
    ((generic_tasklet_handler 10 after_first).mem 10).executed = true ∧
    (generic_tasklet_handler 10 after_first).executed_count = 1 ∧
    (generic_tasklet_handler 10 after_first).pending_count = 0 ∧
    (generic_tasklet_handler 10 after_first).active_tasklets = [10] := by
  have hb : can_inc after_first.executed_count ∧ can_dec after_first.pending_count :=
    ⟨⟨by decide, by decide⟩, ⟨by decide, by decide⟩⟩
  obtain ⟨h1, h2, h3, -, -, -, h4, -⟩ := handler_completion_effect after_first 10 hb.1 hb.2
  exact ⟨hb, h1, h2, h3, h4⟩

/-- C9: `ex6_exit` leaves the live list empty, and the calls it makes are: removal of
the proc entry, lock, then for each live entry in list order unlink, unlock, kill, free,
lock, then unlock, and last (when the cache exists) the destruction of the cache.  So
every entry is unlinked, killed and freed as often as it is on the list, in that order,
and the cache is destroyed after the last free. -/
theorem teardown_order (s : Registry) :
    (ex6_exit s).1.active_tasklets = [] ∧
    (ex6_exit s).2 =
      [Ev.remove_proc_entry, Ev.spin_lock] ++ s.active_tasklets.flatMap exit_events ++
        [Ev.spin_unlock] ++ (if s.tasklet_cache then [Ev.kmem_cache_destroy] else []) ∧
    ∀ a, (ex6_exit s).2.count (Ev.list_del a) = s.active_tasklets.count a ∧
      (ex6_exit s).2.count (Ev.tasklet_kill a) = s.active_tasklets.count a ∧
      (ex6_exit s).2.count (Ev.kmem_cache_free a) = s.active_tasklets.count a := by
  obtain ⟨h1, h2, h3⟩ :=
    exit_loop_spec s.active_tasklets s [Ev.remove_proc_entry, Ev.spin_lock] rfl
  have htr : (ex6_exit s).2 =
      [Ev.remove_proc_entry, Ev.spin_lock] ++ s.active_tasklets.flatMap exit_events ++
        [Ev.spin_unlock] ++ (if s.tasklet_cache then [Ev.kmem_cache_destroy] else []) := by
    unfold ex6_exit
    simp only [h3, h1]
    cases s.tasklet_cache <;> simp
  refine ⟨?_, htr, ?_⟩
  · unfold ex6_exit
    simp only [h3]
    cases s.tasklet_cache <;> simp [h2]
  · intro a
    obtain ⟨c1, c2, c3⟩ := count_exit_events s.active_tasklets a
    rw [htr]
    simp only [List.count_append, c1, c2, c3]
    cases s.tasklet_cache <;> simp [List.count_cons]

theorem scan_pending_all_executed (s : Registry) (l : List Nat)
    (h : ∀ a ∈ l, (s.mem a).executed = true) : scan_pending s l 0 = 0 := by
  rw [scan_pending_eq]
  have : (l.countP fun a => !(s.mem a).executed && (s.mem a).tasklet.sched) = 0 := by
    rw [List.countP_eq_zero]
    intro a ha
    simp [h a ha]
  simp [this]

theorem three_created_then_run (s : Registry) (d1 d2 d3 a1 a2 a3 : Nat) (p1 p2 p3 : Bool)
    (order : List Nat) (hlist : s.active_tasklets = [])
    (hc : s.created_count = 0) (hs : s.scheduled_count = 0) (he : s.executed_count = 0)
    (hh : s.high_prio_count = 0)
    (hprio : [p1, p2, p3].count true = 1) (horder : order.Perm [a1, a2, a3]) :
    (tasklet_stats_show (run_handlers order
      (create_and_schedule_tasklet d3 p3 (some a3)
        (create_and_schedule_tasklet d2 p2 (some a2)
          (create_and_schedule_tasklet d1 p1 (some a1) s).2).2).2)).2 =
      { created := 3, scheduled := 3, executed := 3, high_priority := 1,
        pending_by_scan := 0 } := by
  obtain ⟨-, l1, c1, s1, e1, h1, -, -⟩ := create_some_fields d1 p1 a1 s
  obtain ⟨-, l2, c2, s2, e2, h2, -, -⟩ := create_some_fields d2 p2 a2
    (create_and_schedule_tasklet d1 p1 (some a1) s).2
  obtain ⟨-, l3, c3, s3, e3, h3, -, -⟩ := create_some_fields d3 p3 a3
    (create_and_schedule_tasklet d2 p2 (some a2)
      (create_and_schedule_tasklet d1 p1 (some a1) s).2).2
  obtain ⟨r1, r2, r3, r4, r5, -⟩ := run_handlers_fields order
    (create_and_schedule_tasklet d3 p3 (some a3)
      (create_and_schedule_tasklet d2 p2 (some a2)
        (create_and_schedule_tasklet d1 p1 (some a1) s).2).2).2
  have hlen : order.length = 3 := by simpa using horder.length_eq
  have hscan : scan_pending (run_handlers order
      (create_and_schedule_tasklet d3 p3 (some a3)
        (create_and_schedule_tasklet d2 p2 (some a2)
          (create_and_schedule_tasklet d1 p1 (some a1) s).2).2).2) [a1, a2, a3] 0 = 0 := by
    apply scan_pending_all_executed
    intro a ha
    exact run_handlers_executed order _ a (horder.mem_iff.mpr ha)
  have hhigh : ((if p1 = true then (1 : Int) else 0) + (if p2 = true then 1 else 0)) +
      (if p3 = true then 1 else 0) = 1 := by
    revert hprio
    cases p1 <;> cases p2 <;> cases p3 <;> simp
  simp only [tasklet_stats_show, r1, r2, r3, r4, r5, l3, l2, l1, c3, c2, c1, s3, s2, s1, e3,
    e2, e1, h3, h2, h1, hlist, hc, hs, he, hh, hlen, hscan, List.nil_append,
    List.cons_append, zero_add, hhigh]
  norm_num

/-- C2: from a registry with zeroed counters and an empty live list, three successful
`create_and_schedule_tasklet` calls of which exactly one has the priority flag set,
followed by one run of `generic_tasklet_handler` for each entry in any order, give the
statistics created 3, scheduled 3, executed 3, high priority 1, pending by scan 0; this
holds in particular for the three calls made by `ex6_init`, which returns 0. -/
theorem registry_stats_after_drain (s : Registry) (d1 d2 d3 a1 a2 a3 : Nat) (p1 p2 p3 : Bool)
    (order : List Nat) (hlist : s.active_tasklets = [])
    (hc : s.created_count = 0) (hs : s.scheduled_count = 0) (he : s.executed_count = 0)
    (hh : s.high_prio_count = 0) (hp : s.pending_count = 0)
    (hprio : [p1, p2, p3].count true = 1) (horder : order.Perm [a1, a2, a3]) :
    (tasklet_stats_show (run_handlers order
      (create_and_schedule_tasklet d3 p3 (some a3)
        (create_and_schedule_tasklet d2 p2 (some a2)
          (create_and_schedule_tasklet d1 p1 (some a1) s).2).2).2)).2 =
      { created := 3, scheduled := 3, executed := 3, high_priority := 1,
        pending_by_scan := 0 } ∧
    (ex6_init true true (some a1) (some a2) (some a3) s).1 = 0 ∧
    (tasklet_stats_show (run_handlers order
      (ex6_init true true (some a1) (some a2) (some a3) s).2)).2 =
      { created := 3, scheduled := 3, executed := 3, high_priority := 1,
        pending_by_scan := 0 } ∧
    (run_handlers order (ex6_init true true (some a1) (some a2) (some a3) s).2).pending_count
      = 0 := by
  refine ⟨three_created_then_run s d1 d2 d3 a1 a2 a3 p1 p2 p3 order hlist hc hs he hh hprio
    horder, rfl, ?_, ?_⟩
  · exact three_created_then_run { s with tasklet_cache := true } 100 200 300 a1 a2 a3
      false true false order hlist hc hs he hh (by decide) horder
  · have hlen : order.length = 3 := by simpa using horder.length_eq
    obtain ⟨-, -, -, -, -, r6⟩ := run_handlers_fields order
      (ex6_init true true (some a1) (some a2) (some a3) s).2
    rw [r6, hlen]
    obtain ⟨-, -, -, -, -, -, q1, -⟩ := create_some_fields 100 false a1
      { s with tasklet_cache := true }
    obtain ⟨-, -, -, -, -, -, q2, -⟩ := create_some_fields 200 true a2
      (create_and_schedule_tasklet 100 false (some a1) { s with tasklet_cache := true }).2
    obtain ⟨-, -, -, -, -, -, q3, -⟩ := create_some_fields 300 false a3
      (create_and_schedule_tasklet 200 true (some a2)
        (create_and_schedule_tasklet 100 false (some a1) { s with tasklet_cache := true }).2).2
    show (create_and_schedule_tasklet 300 false (some a3)
      (create_and_schedule_tasklet 200 true (some a2)
        (create_and_schedule_tasklet 100 false (some a1)
          { s with tasklet_cache := true }).2).2).2.pending_count - ((3 : Nat) : Int) = 0
    rw [q3, q2, q1]
    simp [hp]

/-- Witness of `registry_stats_after_drain`: the calls of `ex6_init` with the objects at
addresses 10, 11 and 12, the expedited entry being run first. -/
theorem registry_stats_after_drain_witness :
    ([false, true, false].count true = 1 ∧ [11, 10, 12].Perm [10, 11, 12]) ∧
    (tasklet_stats_show (run_handlers [11, 10, 12]
      (create_and_schedule_tasklet 300 false (some 12)
        (create_and_schedule_tasklet 200 true (some 11)
          (create_and_schedule_tasklet 100 false (some 10)
            (boot fun _ => default_entry)).2).2).2)).2 =
      { created := 3, scheduled := 3, executed := 3, high_priority := 1,
        pending_by_scan := 0 } :=
  ⟨by decide,
   (registry_stats_after_drain (boot fun _ => default_entry) 100 200 300 10 11 12
    false true false [11, 10, 12] rfl rfl rfl rfl rfl rfl (by decide) (by decide)).1⟩

end Ex6

/-! ## Theorems on the delayed work -/

namespace Ex5

theorem fire_times_unarmed (HZ n : Nat) (s : State) (h : s.timer = none) :
    fire_times HZ (n + 1) s = none := by
  simp [fire_times, timer_fire, h]

/-- C3: after `ex5_init` one delayed work is armed and the counter is 0; the handler then
runs on each expiry, the runs numbered 1 to 4 arm the same delayed work again (one
second), the run numbered 5 does not, so that after it no timer is armed and a sixth
or later run never happens. -/
theorem delayed_task_repeat_limit (HZ : Nat) :
    ex5_init HZ = { count := 0, timer := some (2 * HZ), log := [] } ∧
    fire_times HZ 1 (ex5_init HZ) = some { count := 1, timer := some HZ, log := [1] } ∧
    fire_times HZ 2 (ex5_init HZ) = some { count := 2, timer := some HZ, log := [1, 2] } ∧
    fire_times HZ 3 (ex5_init HZ) = some { count := 3, timer := some HZ, log := [1, 2, 3] } ∧
    fire_times HZ 4 (ex5_init HZ) =
      some { count := 4, timer := some HZ, log := [1, 2, 3, 4] } ∧
    fire_times HZ 5 (ex5_init HZ) =
      some { count := 5, timer := none, log := [1, 2, 3, 4, 5] } ∧
    ∀ n, fire_times HZ (6 + n) (ex5_init HZ) = none := by
  have h5 : fire_times HZ 5 (ex5_init HZ) =
      some { count := 5, timer := none, log := [1, 2, 3, 4, 5] } := by
    simp [fire_times, timer_fire, ex5_work_handler, schedule_delayed_work, ex5_init]
  refine ⟨?_, ?_, ?_, ?_, ?_, h5, ?_⟩
  · simp [ex5_init, schedule_delayed_work]
  · simp [fire_times, timer_fire, ex5_work_handler, schedule_delayed_work, ex5_init]
  · simp [fire_times, timer_fire, ex5_work_handler, schedule_delayed_work, ex5_init]
  · simp [fire_times, timer_fire, ex5_work_handler, schedule_delayed_work, ex5_init]
  · simp [fire_times, timer_fire, ex5_work_handler, schedule_delayed_work, ex5_init]
  · intro n
    have h6 : ∀ m s, fire_times HZ (5 + m) s =
        (fire_times HZ 5 s).bind (fire_times HZ m) := by
      intro m s
      simp only [fire_times, show 5 + m = m + 1 + 1 + 1 + 1 + 1 by omega]
      cases timer_fire HZ s with
      | none => rfl
      | some s1 =>
        simp only [Option.bind]
        cases timer_fire HZ s1 with
        | none => rfl
        | some s2 =>
          simp only
          cases timer_fire HZ s2 with
          | none => rfl
          | some s3 =>
            simp only
            cases timer_fire HZ s3 with
            | none => rfl
            | some s4 =>
              simp only
              cases timer_fire HZ s4 with
              | none => rfl
              | some s5 => rfl
    rw [show 6 + n = 5 + (n + 1) by omega, h6, h5, Option.some_bind]
    exact fire_times_unarmed HZ n _ rfl

end Ex5

/-! ## Theorems on the enable/disable gate -/

namespace Ex1

theorem run_cons (op : Op) (ops : List Op) (u : DeferredUnit) :
    run (op :: ops) u = run ops (step u op) := rfl

theorem run_nil (u : DeferredUnit) : run [] u = u := rfl

theorem run_append (ops1 ops2 : List Op) (u : DeferredUnit) :
    run (ops1 ++ ops2) u = run ops2 (run ops1 u) := by
  simp [run, List.foldl_append]

theorem softirq_idem (u : DeferredUnit) : softirq (softirq u) = softirq u := by
  unfold softirq
  by_cases h : u.state = UnitState.Scheduled ∧ u.disable_count = 0
  · simp [h]
  · simp [h]

theorem run_passes (n : Nat) (u : DeferredUnit) :
    run (passes n) u = if n = 0 then u else softirq u := by
  induction n generalizing u with
  | zero => rfl
  | succ k ih =>
    have : passes (k + 1) = Op.softirq :: passes k := rfl
    rw [this, run_cons, ih]
    by_cases hk : k = 0
    · simp [hk, step]
    · simp [hk, step, softirq_idem]

theorem log_grows (ops : List Op) (u : DeferredUnit) :
    ∃ t, (run ops u).log = u.log ++ t := by
  induction ops generalizing u with
  | nil => exact ⟨[], by simp [run]⟩
  | cons op rest ih =>
    obtain ⟨t, ht⟩ := ih (step u op)
    have hstep : ∃ t0, (step u op).log = u.log ++ t0 := by
      cases op
      · refine ⟨[Mark.schedule], ?_⟩
        simp only [step, tasklet_schedule]
        split_ifs <;> rfl
      · refine ⟨[Mark.enable], ?_⟩
        simp only [step, tasklet_enable]
        split_ifs <;> rfl
      · exact ⟨[Mark.disable], rfl⟩
      · exact ⟨[Mark.disable_nosync], rfl⟩
      · simp only [step, softirq]
        split_ifs
        · exact ⟨[Mark.exec u.data], rfl⟩
        · exact ⟨[], by simp⟩
    obtain ⟨t0, ht0⟩ := hstep
    exact ⟨t0 ++ t, by rw [run_cons, ht, ht0, List.append_assoc]⟩

theorem nested_sequence_log (data : Nat) (log : List Mark) (n1 n2 n3 n4 n5 : Nat) :
    (run (nested_sequence n1 n2 n3 n4 n5) (idle_unit data log)).log =
      log ++ (if n1 = 0 then
          [Mark.schedule, Mark.disable, Mark.disable, Mark.enable, Mark.enable, Mark.exec data]
        else
          [Mark.schedule, Mark.exec data, Mark.disable, Mark.disable, Mark.enable,
           Mark.enable]) := by
  simp only [nested_sequence, run_append, run_cons, run_passes, step]
  by_cases h1 : n1 = 0
  · simp [h1, idle_unit, tasklet_schedule, tasklet_disable, tasklet_enable, softirq]
  · simp [h1, idle_unit, tasklet_schedule, tasklet_disable, tasklet_enable, softirq]

/-- C4 (amended): on an enabled, idle unit the calls schedule, disable, disable, enable,
enable, with any number of passes of the run queue between them and at least one pass
at the end, run the handler exactly once, and never between the first disable and the
second enable: the run comes after the second enable when no pass happened between
schedule and the first disable, and right after schedule otherwise.  In `ex1_init` the
tasklet declared disabled and then scheduled is not run by any number of passes, runs
once after `tasklet_enable`, and the history of the whole function starts with the
schedule and the enable calls. -/
theorem nested_disable_single_run (data : Nat) (log : List Mark) (n1 n2 n3 n4 n5 : Nat)
    (n : Nat → Nat) :
    (run (nested_sequence n1 n2 n3 n4 n5) (idle_unit data log)).log =
      log ++ (if n1 = 0 then
          [Mark.schedule, Mark.disable, Mark.disable, Mark.enable, Mark.enable, Mark.exec data]
        else
          [Mark.schedule, Mark.exec data, Mark.disable, Mark.disable, Mark.enable,
           Mark.enable]) ∧
    (run (Op.schedule :: passes n1 ++ Op.disable :: passes n2 ++ Op.disable :: passes n3 ++
        Op.enable :: passes n4) (idle_unit data log)).log =
      log ++ (if n1 = 0 then [Mark.schedule, Mark.disable, Mark.disable, Mark.enable]
        else [Mark.schedule, Mark.exec data, Mark.disable, Mark.disable, Mark.enable]) ∧
    (run (Op.schedule :: passes n1) ex1_tasklet).log = [Mark.schedule] ∧
    (run (Op.schedule :: passes n1 ++ Op.enable :: passes (n2 + 1)) ex1_tasklet).log =
      [Mark.schedule, Mark.enable, Mark.exec 123] ∧
    ∃ t, (run (ex1_init n) ex1_tasklet).log = [Mark.schedule, Mark.enable] ++ t := by
  refine ⟨nested_sequence_log data log n1 n2 n3 n4 n5, ?_, ?_, ?_, ?_⟩
  · simp only [run_append, run_cons, run_passes, step]
    by_cases h1 : n1 = 0
    · simp [h1, idle_unit, tasklet_schedule, tasklet_disable, tasklet_enable, softirq]
    · simp [h1, idle_unit, tasklet_schedule, tasklet_disable, tasklet_enable, softirq]
  · simp [run_cons, run_passes, step, ex1_tasklet, tasklet_schedule, softirq]
  · simp [run_append, run_cons, run_passes, step, ex1_tasklet, tasklet_schedule,
      tasklet_enable, softirq]
  · have hsplit : ex1_init n = (Op.schedule :: passes (n 0) ++ [Op.enable]) ++
        (passes (n 1) ++ Op.schedule :: passes (n 2) ++
          Op.disable :: passes (n 3) ++ Op.schedule :: passes (n 4) ++
          Op.enable :: passes (n 5) ++ Op.schedule :: passes (n 6) ++
          Op.disable_nosync :: passes (n 7) ++ Op.enable :: passes (n 8)) := by
      simp [ex1_init]
    have hhead : (run (Op.schedule :: passes (n 0) ++ [Op.enable]) ex1_tasklet).log =
        [Mark.schedule, Mark.enable] := by
      simp [run_append, run_cons, run_nil, run_passes, step, ex1_tasklet, tasklet_schedule,
        tasklet_enable, softirq]
    rw [hsplit, run_append]
    obtain ⟨t, ht⟩ := log_grows (passes (n 1) ++ Op.schedule :: passes (n 2) ++
          Op.disable :: passes (n 3) ++ Op.schedule :: passes (n 4) ++
          Op.enable :: passes (n 5) ++ Op.schedule :: passes (n 6) ++
          Op.disable_nosync :: passes (n 7) ++ Op.enable :: passes (n 8))
      (run (Op.schedule :: passes (n 0) ++ [Op.enable]) ex1_tasklet)
    exact ⟨t, by rw [ht, hhead]⟩

/-- C4 (as stated) fails: when the run queue makes a pass between schedule and the
first disable, the single run of the handler happens there, before both enable calls. -/
theorem nested_disable_early_run :
    (run [Op.schedule, Op.softirq] (idle_unit 123 [])).log = [Mark.schedule, Mark.exec 123] ∧
    (run (nested_sequence 1 0 0 0 0) (idle_unit 123 [])).log =
      [Mark.schedule, Mark.exec 123, Mark.disable, Mark.disable, Mark.enable, Mark.enable] ∧
    (run (nested_sequence 1 0 0 0 0) (idle_unit 123 [])).log ≠
      [Mark.schedule, Mark.disable, Mark.disable, Mark.enable, Mark.enable, Mark.exec 123] := by
  decide

end Ex1

/-! ## Theorems on allocation failure in the work queue -/

namespace Ex3

/-- C12: `submit_work` returns `-ENOMEM` exactly when the allocation of the work item or
the allocation of its data fails, and then the state is the one it was called with
(nothing appended, nothing executed); otherwise it returns 0 and the queue is the old
one with one item carrying the given function and id appended at its tail. -/
theorem submit_work_alloc_failure (func : Nat) (id : Int) (alloc_work alloc_data : Bool)
    (s : State) :
    submit_work func id alloc_work alloc_data s =
      (if alloc_work = true ∧ alloc_data = true then
        (0, { s with work_list := s.work_list ++ [{ func := func, data := id }] })
      else (-ENOMEM, s)) ∧
    ((submit_work func id alloc_work alloc_data s).1 = -ENOMEM ↔
      (alloc_work = false ∨ alloc_data = false)) ∧
    ((submit_work func id alloc_work alloc_data s).1 = 0 ↔
      (alloc_work = true ∧ alloc_data = true)) ∧
    (submit_work func id alloc_work alloc_data s).2.trace = s.trace ∧
    (submit_work func id alloc_work alloc_data s).2.work_list.length =
      s.work_list.length + (if alloc_work = true ∧ alloc_data = true then 1 else 0) := by
  cases alloc_work <;> cases alloc_data <;> simp [submit_work, ENOMEM]

end Ex3

/-! ## Theorems on the list lock of the registry -/

namespace Ex6

theorem ex6_exit_trace (s : Registry) :
    (ex6_exit s).2 =
      [Ev.remove_proc_entry, Ev.spin_lock] ++ (s.active_tasklets.flatMap exit_events ++
        (Ev.spin_unlock :: (if s.tasklet_cache then [Ev.kmem_cache_destroy] else []))) := by
  obtain ⟨h1, -, h3⟩ :=
    exit_loop_spec s.active_tasklets s [Ev.remove_proc_entry, Ev.spin_lock] rfl
  unfold ex6_exit
  simp only [h3, h1]
  cases s.tasklet_cache <;> simp

theorem lock_replay_exit_events (l : List Nat) (rest : List Ev) :
    lock_replay true (l.flatMap exit_events ++ rest) = lock_replay true rest := by
  induction l with
  | nil => simp
  | cons a t ih =>
    rw [List.flatMap_cons, List.append_assoc]
    simp only [exit_events, List.cons_append, List.nil_append, lock_replay, lock_step]
    simpa using ih

theorem count_lock_exit_events (l : List Nat) :
    (l.flatMap exit_events).count Ev.spin_lock = l.length ∧
    (l.flatMap exit_events).count Ev.spin_unlock = l.length := by
  induction l with
  | nil => simp
  | cons a t ih =>
    obtain ⟨h1, h2⟩ := ih
    rw [List.flatMap_cons, List.count_append, List.count_append, h1, h2]
    simp [exit_events, List.count_cons]
    omega

/-- C14: replayed on the list lock, which is free when `ex6_exit` is entered, the calls
of `ex6_exit` never break the discipline: every `list_del` is made with the lock held,
every `tasklet_kill` and `kmem_cache_free` with the lock free, the lock is never taken
while held nor released while free, and it is free when `ex6_exit` returns; the lock
is taken and released equally often, once more than there are live entries. -/
theorem teardown_lock_discipline (s : Registry) :
    lock_replay false (ex6_exit s).2 = some false ∧
    (ex6_exit s).2.count Ev.spin_lock = (ex6_exit s).2.count Ev.spin_unlock ∧
    (ex6_exit s).2.count Ev.spin_lock = s.active_tasklets.length + 1 := by
  obtain ⟨c1, c2⟩ := count_lock_exit_events s.active_tasklets
  rw [ex6_exit_trace]
  refine ⟨?_, ?_, ?_⟩
  · have hhead : ∀ rest, lock_replay false (Ev.remove_proc_entry :: Ev.spin_lock :: rest) =
        lock_replay true rest := fun _ => rfl
    rw [show ([Ev.remove_proc_entry, Ev.spin_lock] ++ (s.active_tasklets.flatMap exit_events ++
        (Ev.spin_unlock :: (if s.tasklet_cache then [Ev.kmem_cache_destroy] else [])))) =
        Ev.remove_proc_entry :: Ev.spin_lock :: (s.active_tasklets.flatMap exit_events ++
        (Ev.spin_unlock :: (if s.tasklet_cache then [Ev.kmem_cache_destroy] else [])))
      from rfl, hhead, lock_replay_exit_events]
    cases s.tasklet_cache <;> rfl
  · simp only [List.count_append, c1, c2]
    cases s.tasklet_cache <;> simp [List.count_cons] <;> omega
  · simp only [List.count_append, c1]
    cases s.tasklet_cache <;> simp [List.count_cons] <;> omega

/-- The replay does reject traces that break the discipline. -/
theorem lock_replay_rejects :
    lock_replay false [Ev.spin_lock, Ev.list_del 0, Ev.tasklet_kill 0] = none ∧
    lock_replay false [Ev.list_del 0] = none ∧
    lock_replay false [Ev.spin_lock, Ev.spin_lock] = none ∧
    lock_replay false [Ev.spin_lock, Ev.list_del 0, Ev.spin_unlock, Ev.tasklet_kill 0]
      = some false := by
  decide

end Ex6

/-! ## Theorems on the two run queues -/

namespace Ex6

theorem run_tasklet_frame (a : Nat) (s : Registry) :
    (run_tasklet a s).tasklet_vec = s.tasklet_vec ∧
    (run_tasklet a s).tasklet_hi_vec = s.tasklet_hi_vec ∧
    ∀ b, ((run_tasklet a s).mem b).tasklet.count = (s.mem b).tasklet.count := by
  refine ⟨rfl, rfl, ?_⟩
  intro b
  simp only [run_tasklet, generic_tasklet_handler, store]
  split_ifs with h1 h2 h3 <;> simp_all

theorem enabled_units_congr (s1 s : Registry) (q : List Nat)
    (h : ∀ b, (s1.mem b).tasklet.count = (s.mem b).tasklet.count) :
    enabled_units s1 q = enabled_units s q := by
  unfold enabled_units
  congr 1
  funext a
  rw [h a]

theorem enabled_units_cons (s : Registry) (a : Nat) (q : List Nat) :
    enabled_units s (a :: q) =
      (if (s.mem a).tasklet.count = 0 then a :: enabled_units s q else enabled_units s q) := by
  by_cases hc : (s.mem a).tasklet.count = 0 <;> simp [enabled_units, hc]

theorem tasklet_action_hi (s : Registry) (a : Nat) (rest : List Nat)
    (hh : s.tasklet_hi_vec = a :: rest) :
    tasklet_action s =
      (if (s.mem a).tasklet.count = 0 then
        some (some a, run_tasklet a { s with tasklet_hi_vec := rest })
      else some (none, { s with tasklet_hi_vec := rest })) := by
  obtain ⟨mem, act, cache, c1, c2, c3, c4, c5, vec, hi⟩ := s
  simp only at hh
  subst hh
  rfl

theorem tasklet_action_normal (s : Registry) (a : Nat) (rest : List Nat)
    (hh : s.tasklet_hi_vec = []) (hq : s.tasklet_vec = a :: rest) :
    tasklet_action s =
      (if (s.mem a).tasklet.count = 0 then
        some (some a, run_tasklet a { s with tasklet_vec := rest })
      else some (none, { s with tasklet_vec := rest })) := by
  obtain ⟨mem, act, cache, c1, c2, c3, c4, c5, vec, hi⟩ := s
  simp only at hh hq
  subst hh hq
  rfl

theorem tasklet_action_idle (s : Registry) (hh : s.tasklet_hi_vec = [])
    (hq : s.tasklet_vec = []) : tasklet_action s = none := by
  obtain ⟨mem, act, cache, c1, c2, c3, c4, c5, vec, hi⟩ := s
  simp only at hh hq
  subst hh hq
  rfl

theorem drain_succ (fuel : Nat) (s s1 s2 : Registry) (r : Option Nat) (l : List Nat)
    (ha : tasklet_action s = some (r, s1)) (hd : drain fuel s1 = some (l, s2)) :
    drain (fuel + 1) s = some (r.toList ++ l, s2) := by
  simp [drain, ha, hd]

theorem drain_normal (q : List Nat) (fuel : Nat) (s : Registry)
    (hhi : s.tasklet_hi_vec = []) (hq : s.tasklet_vec = q) (hfuel : q.length < fuel) :
    ∃ s1, drain fuel s = some (enabled_units s q, s1) ∧ s1.tasklet_hi_vec = [] ∧
      s1.tasklet_vec = [] := by
  induction q generalizing fuel s with
  | nil =>
    obtain ⟨n, rfl⟩ : ∃ n, fuel = n + 1 := ⟨fuel - 1, by simp at hfuel; omega⟩
    exact ⟨s, by simp [drain, tasklet_action_idle s hhi hq, enabled_units], hhi, hq⟩
  | cons a rest ih =>
    obtain ⟨n, rfl⟩ : ∃ n, fuel = n + 1 := ⟨fuel - 1, by simp at hfuel; omega⟩
    have hn : rest.length < n := by simp at hfuel; omega
    have hact := tasklet_action_normal s a rest hhi hq
    by_cases hc : (s.mem a).tasklet.count = 0
    · rw [if_pos hc] at hact
      obtain ⟨f1, f2, f3⟩ := run_tasklet_frame a { s with tasklet_vec := rest }
      obtain ⟨s1, hd, h1, h2⟩ := ih n (run_tasklet a { s with tasklet_vec := rest })
        (f2.trans hhi) f1 hn
      refine ⟨s1, ?_, h1, h2⟩
      rw [enabled_units_congr _ s rest (fun b => f3 b)] at hd
      rw [drain_succ n s _ s1 _ _ hact hd, enabled_units_cons, if_pos hc]
      rfl
    · rw [if_neg hc] at hact
      obtain ⟨s1, hd, h1, h2⟩ := ih n { s with tasklet_vec := rest } hhi rfl hn
      refine ⟨s1, ?_, h1, h2⟩
      have hd2 : drain n { s with tasklet_vec := rest } = some (enabled_units s rest, s1) := hd
      rw [drain_succ n s _ s1 _ _ hact hd2, enabled_units_cons, if_neg hc]
      rfl

theorem drain_both (h : List Nat) (fuel : Nat) (s : Registry)
    (hh : s.tasklet_hi_vec = h) (hfuel : h.length + s.tasklet_vec.length < fuel) :
    ∃ s1, drain fuel s =
        some (enabled_units s h ++ enabled_units s s.tasklet_vec, s1) ∧
      s1.tasklet_hi_vec = [] ∧ s1.tasklet_vec = [] := by
  induction h generalizing fuel s with
  | nil =>
    obtain ⟨s1, hd, h1, h2⟩ := drain_normal s.tasklet_vec fuel s hh rfl (by simpa using hfuel)
    exact ⟨s1, by simpa [enabled_units] using hd, h1, h2⟩
  | cons a rest ih =>
    obtain ⟨n, rfl⟩ : ∃ n, fuel = n + 1 := ⟨fuel - 1, by simp at hfuel; omega⟩
    have hn : rest.length + s.tasklet_vec.length < n := by simp at hfuel; omega
    have hact := tasklet_action_hi s a rest hh
    by_cases hc : (s.mem a).tasklet.count = 0
    · rw [if_pos hc] at hact
      obtain ⟨f1, f2, f3⟩ := run_tasklet_frame a { s with tasklet_hi_vec := rest }
      obtain ⟨s1, hd, h1, h2⟩ := ih n (run_tasklet a { s with tasklet_hi_vec := rest })
        f2 (by rw [f1]; exact hn)
      refine ⟨s1, ?_, h1, h2⟩
      rw [f1, enabled_units_congr _ s rest (fun b => f3 b),
        enabled_units_congr _ s _ (fun b => f3 b)] at hd
      rw [drain_succ n s _ s1 _ _ hact hd, enabled_units_cons, if_pos hc]
      rfl
    · rw [if_neg hc] at hact
      obtain ⟨s1, hd, h1, h2⟩ := ih n { s with tasklet_hi_vec := rest } rfl hn
      refine ⟨s1, ?_, h1, h2⟩
      have hd2 : drain n { s with tasklet_hi_vec := rest } =
          some (enabled_units s rest ++ enabled_units s s.tasklet_vec, s1) := hd
      rw [drain_succ n s _ s1 _ _ hact hd2, enabled_units_cons, if_neg hc]
      rfl

theorem ex6_init_state (mem : Nat → tasklet_entry_t) (a1 a2 a3 : Nat) :
    (ex6_init true true (some a1) (some a2) (some a3) (boot mem)).2.tasklet_hi_vec = [a2] ∧
    (ex6_init true true (some a1) (some a2) (some a3) (boot mem)).2.tasklet_vec = [a1, a3] ∧
    (ex6_init true true (some a1) (some a2) (some a3) (boot mem)).2.mem =
      fun b =>
        if b = a3 then
          { tasklet := { sched := true, count := 0, data := a3 }, data := 300,
            high_priority := false, executed := false }
        else if b = a2 then
          { tasklet := { sched := true, count := 0, data := a2 }, data := 200,
            high_priority := true, executed := false }
        else if b = a1 then
          { tasklet := { sched := true, count := 0, data := a1 }, data := 100,
            high_priority := false, executed := false }
        else mem b := by
  have hS : (ex6_init true true (some a1) (some a2) (some a3) (boot mem)).2 =
      (create_and_schedule_tasklet 300 false (some a3)
        (create_and_schedule_tasklet 200 true (some a2)
          (create_and_schedule_tasklet 100 false (some a1)
            { boot mem with tasklet_cache := true }).2).2).2 := rfl
  have q1 := fun d p a s => (create_some_queues d p a s).1
  have q2 := fun d p a s => (create_some_queues d p a s).2
  rw [hS]
  refine ⟨?_, ?_, ?_⟩
  · simp [q1, boot]
  · simp [q2, boot]
  · simp [create_some_mem, boot]

/-- C13: `create_and_schedule_tasklet` appends the new unit to the expedited run queue
when the priority flag is set and to the normal run queue otherwise, leaving the other
queue alone; while the expedited queue is not empty a step of the engine takes its head
and does not touch the normal queue; a drain of the engine (given enough steps) runs
the enabled units of the expedited queue, in queue order, and only then the enabled
units of the normal queue, and leaves both queues empty; after `ex6_init` the drain runs
the second, the first and the third entry, in that order, whose payloads are 200, 100
and 300. -/
theorem two_tier_priority_order (s : Registry) (task_data : Nat) (high_prio : Bool)
    (entry : Nat) (mem : Nat → tasklet_entry_t) (a1 a2 a3 n : Nat)
    (hdistinct : [a1, a2, a3].Nodup) :
    (create_and_schedule_tasklet task_data high_prio (some entry) s).2.tasklet_hi_vec =
      (if high_prio then s.tasklet_hi_vec ++ [entry] else s.tasklet_hi_vec) ∧
    (create_and_schedule_tasklet task_data high_prio (some entry) s).2.tasklet_vec =
      (if high_prio then s.tasklet_vec else s.tasklet_vec ++ [entry]) ∧
    (∀ a rest r s1, s.tasklet_hi_vec = a :: rest → tasklet_action s = some (r, s1) →
      s1.tasklet_vec = s.tasklet_vec ∧ s1.tasklet_hi_vec = rest ∧ (r = some a ∨ r = none)) ∧
    (∃ s1, drain (s.tasklet_hi_vec.length + s.tasklet_vec.length + 1 + n) s =
        some (enabled_units s s.tasklet_hi_vec ++ enabled_units s s.tasklet_vec, s1) ∧
      s1.tasklet_hi_vec = [] ∧ s1.tasklet_vec = []) ∧
    (∃ s1, drain (4 + n) (ex6_init true true (some a1) (some a2) (some a3) (boot mem)).2 =
        some ([a2, a1, a3], s1) ∧
      s1.tasklet_hi_vec = [] ∧ s1.tasklet_vec = []) ∧
    [a2, a1, a3].map
        (fun a => ((ex6_init true true (some a1) (some a2) (some a3) (boot mem)).2.mem a).data)
      = [200, 100, 300] := by
  obtain ⟨i1, i2, i3⟩ := ex6_init_state mem a1 a2 a3
  have hne : a1 ≠ a2 ∧ a1 ≠ a3 ∧ a2 ≠ a3 := by
    simp only [List.nodup_cons, List.mem_cons, List.mem_singleton, not_or] at hdistinct
    exact ⟨hdistinct.1.1, hdistinct.1.2.1, hdistinct.2.1.1⟩
  obtain ⟨n12, n13, n23⟩ := hne
  refine ⟨(create_some_queues task_data high_prio entry s).1,
    (create_some_queues task_data high_prio entry s).2, ?_,
    drain_both s.tasklet_hi_vec _ s rfl (by omega), ?_, ?_⟩
  · intro a rest r s1 hh hact
    rw [tasklet_action_hi s a rest hh] at hact
    obtain ⟨f1, f2, -⟩ := run_tasklet_frame a { s with tasklet_hi_vec := rest }
    by_cases hc : (s.mem a).tasklet.count = 0
    · rw [if_pos hc] at hact
      simp only [Option.some.injEq, Prod.mk.injEq] at hact
      obtain ⟨hr, hs⟩ := hact
      subst hr hs
      exact ⟨f1, f2, Or.inl rfl⟩
    · rw [if_neg hc] at hact
      simp only [Option.some.injEq, Prod.mk.injEq] at hact
      obtain ⟨hr, hs⟩ := hact
      subst hr hs
      exact ⟨rfl, rfl, Or.inr rfl⟩
  · obtain ⟨s1, hd, h1, h2⟩ := drain_both [a2] (4 + n)
      (ex6_init true true (some a1) (some a2) (some a3) (boot mem)).2 i1
      (by rw [i2]; simp; omega)
    refine ⟨s1, ?_, h1, h2⟩
    rw [hd, i2]
    have e1 : enabled_units (ex6_init true true (some a1) (some a2) (some a3) (boot mem)).2
        [a2] = [a2] := by
      simp [enabled_units, i3, n23]
    have e2 : enabled_units (ex6_init true true (some a1) (some a2) (some a3) (boot mem)).2
        [a1, a3] = [a1, a3] := by
      simp [enabled_units, i3, n12, n13]
    rw [e1, e2]
    rfl
  · simp [i3, n12, n13, n23, Ne.symm n23]

/-- Witness of `two_tier_priority_order`: `ex6_init` with the objects at addresses 10, 11
and 12. -/
theorem two_tier_priority_order_witness :
    [10, 11, 12].Nodup ∧
    ∃ s1, drain (4 + 0)
          (ex6_init true true (some 10) (some 11) (some 12) (boot fun _ => default_entry)).2 =
        some ([11, 10, 12], s1) ∧
      s1.tasklet_hi_vec = [] ∧ s1.tasklet_vec = [] :=
  ⟨by decide,
   (two_tier_priority_order (boot fun _ => default_entry) 0 false 0 (fun _ => default_entry)
    10 11 12 0 (by decide)).2.2.2.2.1⟩

end Ex6

/-! ## Theorems on the counters of the registry -/

namespace Ex6

end Ex6

/-! ## Theorems on synchronous cancellation -/

namespace Ex7

theorem worker_step_skips (s : WorkQueue) (x : Nat) (hq : x ∉ s.queue)
    (hrun : s.running ≠ some x) :
    x ∉ (worker_step s).queue ∧ (worker_step s).running ≠ some x ∧
      (worker_step s).log.count x = s.log.count x := by
  obtain ⟨q, r, t, l⟩ := s
  simp only at hq hrun
  cases r with
  | some y =>
    have hyx : y ≠ x := fun e => hrun (by rw [e])
    simp [worker_step, hq, List.count_append, List.count_cons, hyx]
  | none =>
    cases q with
    | nil => simp [worker_step]
    | cons y rest =>
      simp only [List.mem_cons, not_or] at hq
      have hyx : y ≠ x := fun e => hq.1 e.symm
      simp [worker_step, hq.2, hyx]

theorem worker_steps_skip (n : Nat) (s : WorkQueue) (x : Nat) (hq : x ∉ s.queue)
    (hrun : s.running ≠ some x) :
    (worker_steps n s).log.count x = s.log.count x := by
  induction n generalizing s with
  | zero => rfl
  | succ k ih =>
    obtain ⟨h1, h2, h3⟩ := worker_step_skips s x hq hrun
    rw [worker_steps, ih _ h1 h2, h3]

theorem worker_steps_idle (n : Nat) (s : WorkQueue) (hq : s.queue = [])
    (hrun : s.running = none) : worker_steps n s = s := by
  induction n with
  | zero => rfl
  | succ k ih =>
    obtain ⟨q, r, t, l⟩ := s
    simp only at hq hrun
    subst hq hrun
    simpa [worker_steps, worker_step] using ih

/-- C11: on a work queue whose pending items are distinct, `cancel_work_sync` on an item
that is not being executed returns `true` and removes the item when it is queued, and
returns `false` and leaves the queue as it is when it is not queued (it has completed
or was never submitted); in both cases no handler runs during the call, and however
long the worker goes on afterwards it never runs the item.  For `ex7.c`, `ex8.c` and
`ex4.c`: unloading right after loading cancels the pending items, which never run;
unloading after the items have run reports that nothing was pending. -/
theorem cancel_sync_result (s : WorkQueue) (x n : Nat) (hq : s.queue.Nodup)
    (hrun : s.running ≠ some x) :
    cancel_work_sync x s =
      (if x ∈ s.queue then (true, { s with queue := s.queue.erase x }) else (false, s)) ∧
    x ∉ (cancel_work_sync x s).2.queue ∧
    (cancel_work_sync x s).2.log = s.log ∧
    (worker_steps n (cancel_work_sync x s).2).log.count x = s.log.count x ∧
    ex7_exit (ex7_init empty).2 = ((true, true), empty) ∧
    worker_steps n (ex7_exit (ex7_init empty).2).2 = empty ∧
    ex7_exit (worker_steps 2 (timer_expire delayed_work (worker_steps 2 (ex7_init empty).2))) =
      ((false, false), { queue := [], running := none, timers := [], log := [1, 2] }) ∧
    Ex4.ex4_exit (Ex4.ex4_init empty).2 = (true, empty) ∧
    Ex4.ex4_exit (worker_steps 2 (Ex4.ex4_init empty).2) =
      (false, { queue := [], running := none, timers := [], log := [1] }) ∧
    Ex8.ex8_exit (Ex8.ex8_init true { my_unbound_wq := false, wq := empty }).2 =
      (some (true, true), { my_unbound_wq := false, wq := empty }) := by
  have hres : cancel_work_sync x s =
      (if x ∈ s.queue then (true, { s with queue := s.queue.erase x }) else (false, s)) := by
    have hd : decide (s.running = some x) = false := by simpa using hrun
    simp only [cancel_work_sync, hd]
    by_cases hx : x ∈ s.queue <;> simp [hx]
  have hnot : x ∉ (cancel_work_sync x s).2.queue := by
    rw [hres]
    by_cases hx : x ∈ s.queue
    · simp only [if_pos hx]
      exact fun h => (List.Nodup.mem_erase_iff hq).mp h |>.1 rfl
    · simpa only [if_neg hx] using hx
  have hrun2 : (cancel_work_sync x s).2.running ≠ some x := by
    rw [hres]
    by_cases hx : x ∈ s.queue
    · simpa only [if_pos hx] using hrun
    · simpa only [if_neg hx] using hrun
  have hlog : (cancel_work_sync x s).2.log = s.log := by
    rw [hres]
    by_cases hx : x ∈ s.queue
    · simp only [if_pos hx]
    · simp only [if_neg hx]
  refine ⟨hres, hnot, hlog, ?_, by decide, ?_, by decide, by decide, by decide, by decide⟩
  · rw [worker_steps_skip n _ x hnot hrun2, hlog]
  · rw [show ex7_exit (ex7_init empty).2 = ((true, true), empty) by decide]
    exact worker_steps_idle n empty rfl rfl

/-- Witness of `cancel_sync_result`: in `sample` item 5 is queued behind item 4. -/
theorem cancel_sync_result_witness :
    (sample.queue.Nodup ∧ sample.running ≠ some 5) ∧
    cancel_work_sync 5 sample =
      (if 5 ∈ sample.queue then (true, { sample with queue := sample.queue.erase 5 })
       else (false, sample)) ∧
    5 ∉ (cancel_work_sync 5 sample).2.queue ∧
    (cancel_work_sync 5 sample).2.log = sample.log ∧
    (worker_steps 7 (cancel_work_sync 5 sample).2).log.count 5 = sample.log.count 5 :=
  ⟨by decide,
   (cancel_sync_result sample 5 7 (by decide) (by decide)).1,
   (cancel_sync_result sample 5 7 (by decide) (by decide)).2.1,
   (cancel_sync_result sample 5 7 (by decide) (by decide)).2.2.1,
   (cancel_sync_result sample 5 7 (by decide) (by decide)).2.2.2.1⟩

end Ex7
